import Mathlib

/-! go-mini-psqld: the protocol engine of `pkg/server`.

A shallow embedding of `pkg/server/server.go` and `pkg/server/config_option.go`.

* A Go `byte` is a `Fin 256`; a `[]byte` and a Go `string` are lists of bytes.
* Go `int` is taken to be 64 bits wide (every length that occurs fits), so `int`
  arithmetic is arithmetic in `Int`; the conversion `uint32(x)` is `x % 2^32`.
* The connection is explicit state: the events the peer will still deliver, the
  bytes passed to `Write` so far, and whether `Close` has run.
* A function that can return an error, or abort through a run-time panic,
  returns a `Res`.
* The query handler is a function of the query bytes; the session state
  records the queries it was called with, in call order. For what the whole
  session writes, where one call of the handler may depend on an earlier one,
  `handleConnectionMem` threads the state and memory of the handler and the
  store that `append(body, 0x00)` makes into the slice the handler returned;
  `handleConnectionMem_fresh` shows that it agrees with `handleConnection` for
  a handler without memory.
* The `for` loop of `handleConnection` takes fuel; `serve` gives it fuel enough
  for the whole stream, and `handleLoop_fuel` shows that more fuel changes
  nothing.
-/

namespace MiniPsqld

/-- A Go `byte`. -/
abbrev Byte := Fin 256

/-- The Go conversion `byte(v)`: the low eight bits of `v`. -/
def toByte (v : Nat) : Byte := ⟨v % 256, Nat.mod_lt _ (by decide)⟩

/-- The Go conversion `uint32(v)` of a non-negative `int`. -/
def uint32 (v : Nat) : Nat := v % 2 ^ 32

/-- The bytes of an ASCII string literal of the source. -/
def ascii (s : String) : List Byte := s.toList.map (fun ch => toByte ch.toNat)

/-- Go `error` values: `io.EOF`, some other transport error, and the wrapping
`fmt.Errorf("...: %w", inner)`. -/
inductive GoError where
  | eof
  | other (msg : String)
  | wrapped (msg : String) (inner : GoError)
  deriving DecidableEq, Repr

/-- Go `errors.Is(err, io.EOF)`: unwraps until `io.EOF` is found. -/
def errorsIsEOF : GoError → Bool
  | .eof => true
  | .other _ => false
  | .wrapped _ inner => errorsIsEOF inner

/-- What the peer delivers to one `Read` call: a chunk of bytes that is
available at that moment, or a transport error other than end-of-stream.
The end of the list of chunks is the end of the stream. -/
inductive Chunk where
  | data (bs : List Byte)
  | fail (msg : String)
  deriving DecidableEq, Repr

/-- The accepted TCP connection `c net.Conn`. -/
structure Conn where
  input : List Chunk
  output : List Byte
  closed : Bool
  deriving DecidableEq, Repr

/-- Go `c.Write(b)`; the source ignores its results. -/
def Conn.write (c : Conn) (b : List Byte) : Conn :=
  { c with output := c.output ++ b }

/-- Go `c.Close()`. -/
def Conn.close (c : Conn) : Conn :=
  { c with closed := true }

/-- Go `c.Read(buf)` with `len(buf) = n` on a TCP connection: a zero-length
buffer returns `0, nil` at once; otherwise the call returns what is available,
at most `n` bytes, or `io.EOF` at the end of the stream, or the transport's
error. -/
def Conn.read (c : Conn) (n : Nat) : Except GoError (List Byte) × Conn :=
  if n = 0 then (.ok [], c)
  else
    match c.input with
    | [] => (.error .eof, c)
    | .fail msg :: rest => (.error (.other msg), { c with input := rest })
    | .data bs :: rest =>
      if bs.length ≤ n then (.ok bs, { c with input := rest })
      else (.ok (bs.take n), { c with input := .data (bs.drop n) :: rest })

/-- The result of a call that may return normally (`error` is `nil`), return an
error, or abort in a run-time panic; each with the connection afterwards. -/
inductive Res (α : Type) where
  | ok (a : α) (c : Conn)
  | err (e : GoError) (c : Conn)
  | panicked (msg : String) (c : Conn)
  deriving DecidableEq, Repr

/-- Go `binary.BigEndian.PutUint32(b, v)` on a 4-byte slice: the bytes written. -/
def putUint32 (v : Nat) : List Byte :=
  [toByte (v / 2 ^ 24), toByte (v / 2 ^ 16), toByte (v / 2 ^ 8), toByte v]

/-- Go `binary.BigEndian.Uint32(b)`; `none` is the index-out-of-range panic
of `_ = b[3]` on a slice shorter than four bytes. -/
def bigEndianUint32 (b : List Byte) : Option Nat :=
  match b with
  | b0 :: b1 :: b2 :: b3 :: _ =>
    some (b0.val * 2 ^ 24 + b1.val * 2 ^ 16 + b2.val * 2 ^ 8 + b3.val)
  | _ => none

/-- The constant `authenticationOk` (server.go:14). -/
def authenticationOk : List Byte := [0x52, 0x00, 0x00, 0x00, 0x08, 0x00, 0x00, 0x00, 0x00]

/-- The constant `readyForQuery` (server.go:17). -/
def readyForQuery : List Byte := [0x5a, 0x00, 0x00, 0x00, 0x05, 0x49]

/-- The constant `acceptMsg` (server.go:22). -/
def acceptMsg : List Byte := [0x43, 0x00, 0x00, 0x00, 0x7, 0x4f, 0x4b, 0x00]

/-- The query handler `func(qry []byte) ([]byte, error)`: a `nil` slice is
`none`, a `nil` error is `none`. -/
abbrev QueryHandler := List Byte → Option (List Byte) × Option GoError

/-- The struct `TCPServerConfig` (server.go:24). -/
structure TCPServerConfig where
  Port : Int
  QueryHandler : QueryHandler

/-- The struct `TCPServer` (server.go:29). -/
structure TCPServer where
  port : Int
  qryHandler : QueryHandler
  serverVersion : List Byte
  timezone : List Byte

/-- The method `TCPServer.read` (server.go:205): `make([]byte, len)` panics on a
negative length; then ONE call of `r.Read(buf)`, whose error is wrapped and
whose `n` bytes are returned as `buf[:n]`. The receiver is not used. -/
def read (c : Conn) (len : Int) : Res (List Byte) :=
  if len < 0 then .panicked "makeslice: len out of range" c
  else
    match c.read len.toNat with
    | (.error e, c1) => .err (.wrapped "error reading from connection" e) c1
    | (.ok buf, c1) => .ok buf c1

/-- The method `TCPServer.buildParameterStatus` (server.go:126). -/
def buildParameterStatus (name value : List Byte) : List Byte :=
  let key := name ++ [0x00]
  let val := value ++ [0x00]
  let length := 4 + key.length + val.length
  let len := putUint32 (uint32 length)
  [0x53] ++ len ++ key ++ val

/-- The method `TCPServer.buildParameters` (server.go:118). -/
def buildParameters (s : TCPServer) : List Byte :=
  buildParameterStatus (ascii "TimeZone") s.timezone
    ++ buildParameterStatus (ascii "server_version") s.serverVersion

/-- The method `TCPServer.buildCompletedResponse` (server.go:147): the bytes it
returns. Its first statement, `body = append(body, 0x00)`, also stores the NUL
into the backing array of the caller's slice when that slice has spare
capacity; that store is `appendNul`, and `loopBodyMem` applies it to the memory
of the handler. -/
def buildCompletedResponse (body : List Byte) : List Byte :=
  let body := body ++ [0x00]
  let length := putUint32 (uint32 (body.length + 4))
  [0x43] ++ length ++ body

/-- The method `TCPServer.readMessage` (server.go:160): three reads, of 1 byte,
of 4 bytes, and of `int(binary.BigEndian.Uint32(len)) - 4` bytes. -/
def readMessage (c : Conn) : Res (List Byte × List Byte) :=
  match read c 1 with
  | .panicked m c1 => .panicked m c1
  | .err e c1 => .err e c1
  | .ok typ c1 =>
    match read c1 4 with
    | .panicked m c2 => .panicked m c2
    | .err e c2 => .err e c2
    | .ok len c2 =>
      match bigEndianUint32 len with
      | none => .panicked "index out of range [3]" c2
      | some v =>
        match read c2 ((v : Int) - 4) with
        | .panicked m c3 => .panicked m c3
        | .err e c3 => .err e c3
        | .ok message c3 => .ok (typ, message) c3

/-- The method `TCPServer.startup` (server.go:179). The decline byte is written
right after the length has been read, before the body is read. -/
def startup (s : TCPServer) (c : Conn) : Res Unit :=
  match read c 4 with
  | .panicked m c1 => .panicked m c1
  | .err e c1 => .err e c1
  | .ok sizeByte c1 =>
    let c2 := c1.write [0x4e]
    match bigEndianUint32 sizeByte with
    | none => .panicked "index out of range [3]" c2
    | some size =>
      match read c2 ((size : Int) - 4) with
      | .panicked m c3 => .panicked m c3
      | .err e c3 => .err e c3
      | .ok _ c3 =>
        .ok () (((c3.write authenticationOk).write (buildParameters s)).write readyForQuery)

/-- The state of one session: the connection and the queries passed to the
handler so far, in call order. -/
structure State where
  conn : Conn
  calls : List (List Byte)
  deriving DecidableEq, Repr

/-- How `handleConnection` ends: it returns (the deferred `c.Close()` has run),
the process is ended by `os.Exit(1)`, the goroutine panics, or the model ran
out of fuel. -/
inductive Outcome where
  | returned (st : State)
  | exited (st : State)
  | panicked (msg : String) (st : State)
  | outOfFuel
  deriving DecidableEq, Repr

/-- One pass through the body of the `for` loop: go round again, or stop. -/
inductive Step where
  | next (st : State)
  | stop (o : Outcome)
  deriving DecidableEq, Repr

/-- The body of the `for` loop of `handleConnection` (server.go:85-114). -/
def loopBody (s : TCPServer) (st : State) : Step :=
  match readMessage st.conn with
  | .panicked m c1 => .stop (.panicked m { st with conn := c1.close })
  | .err e c1 =>
    if errorsIsEOF e then .stop (.returned { st with conn := c1.close })
    else .stop (.exited { st with conn := c1 })
  | .ok (typ, msg) c1 =>
    match typ with
    | [] => .stop (.panicked "index out of range [0]" { st with conn := c1.close })
    | t :: _ =>
      if t = 0x58 then .stop (.returned { st with conn := c1.close })
      else if t = 0x51 then
        let (res, _err) := s.qryHandler msg
        let c2 :=
          match res with
          | none => c1.write acceptMsg
          | some r => c1.write (buildCompletedResponse r)
        .next { conn := c2.write readyForQuery, calls := st.calls ++ [msg] }
      else .next { st with conn := c1 }

/-- The `for` loop of `handleConnection`, with fuel for the number of passes. -/
def handleLoop (s : TCPServer) : Nat → State → Outcome
  | 0, _ => .outOfFuel
  | fuel + 1, st =>
    match loopBody s st with
    | .stop o => o
    | .next st1 => handleLoop s fuel st1

/-- A bound on the number of `Read` calls that can still succeed with data or
fail with a transport error: every chunk counts once, and once more per byte. -/
def streamSize : List Chunk → Nat
  | [] => 0
  | .data bs :: rest => bs.length + 1 + streamSize rest
  | .fail _ :: rest => 1 + streamSize rest

/-- The frame loop with fuel enough for the whole stream. -/
def serve (s : TCPServer) (st : State) : Outcome :=
  handleLoop s (streamSize st.conn.input + 1) st

/-- The method `TCPServer.handleConnection` (server.go:80): the result of
`startup` is discarded; a panic in `startup` happens before `defer c.Close()`. -/
def handleConnection (s : TCPServer) (c : Conn) : Outcome :=
  match startup s c with
  | .panicked m c1 => .panicked m { conn := c1, calls := [] }
  | .err _ c1 => serve s { conn := c1, calls := [] }
  | .ok _ c1 => serve s { conn := c1, calls := [] }

/-- A stream on which the bytes `bs` are available in one piece, followed by
the later events `later`: every read of bytes of `bs` delivers them in full. -/
def deliver (bs : List Byte) (later : List Chunk) : List Chunk :=
  match bs with
  | [] => later
  | _ :: _ => .data bs :: later

/-- A well-formed frame: tag, length field `4 + len(payload)`, payload. -/
def frame (tag : Byte) (payload : List Byte) : List Byte :=
  [tag] ++ putUint32 (4 + payload.length) ++ payload

/-- A server with the default parameters whose handler answers every query
with an absent result and no error. -/
def absentServer : TCPServer :=
  { port := 54322, qryHandler := fun _ => (none, none),
    serverVersion := ascii "0.0", timezone := ascii "UTC" }

/-- A server whose handler answers every query with the bytes `res`. -/
def bytesServer (res : List Byte) : TCPServer :=
  { port := 54322, qryHandler := fun _ => (some res, none),
    serverVersion := ascii "0.0", timezone := ascii "UTC" }

/-- A server whose handler fails on every query, with no result. -/
def failingServer : TCPServer :=
  { port := 54322, qryHandler := fun _ => (none, some (.other "syntax error")),
    serverVersion := ascii "0.0", timezone := ascii "UTC" }

/-- The bytes of the query text `SELECT 1` followed by NUL. -/
def select1 : List Byte := ascii "SELECT 1" ++ [0x00]

/-- The type `tcpServerOption` (config_option.go:3), `func(*TCPServer)`: the
update it makes to the server behind the pointer. -/
abbrev tcpServerOption := TCPServer → TCPServer

/-- The function `WithServerVersion` (config_option.go:5). -/
def WithServerVersion (version : List Byte) : tcpServerOption :=
  fun s => { s with serverVersion := version }

/-- The function `WithTimeZone` (config_option.go:11). -/
def WithTimeZone (timezone : List Byte) : tcpServerOption :=
  fun s => { s with timezone := timezone }

/-- The loop `for _, opt := range opts { opt(s) }` of `NewTCPServer`
(server.go:45-47). -/
def applyOptions : List tcpServerOption → TCPServer → TCPServer
  | [], s => s
  | opt :: opts, s => applyOptions opts (opt s)

/-- The function `NewTCPServer` (server.go:38). -/
def NewTCPServer (conf : TCPServerConfig) (opts : List tcpServerOption) : TCPServer :=
  applyOptions opts
    { port := conf.Port, qryHandler := conf.QueryHandler,
      serverVersion := ascii "0.0", timezone := ascii "UTC" }

/-- A server whose handler returns the query bytes it was given. -/
def echoServer : TCPServer :=
  { port := 54322, qryHandler := fun q => (some q, none),
    serverVersion := ascii "0.0", timezone := ascii "UTC" }

/-- The bytes of a sequence of well-formed frames, each given as tag and
payload. -/
def framesBytes : List (Byte × List Byte) → List Byte
  | [] => []
  | (tag, payload) :: fs => frame tag payload ++ framesBytes fs

/-- The handshake byte sequence of the specification: decline byte,
AuthenticationOk, ParameterStatus of the time zone, ParameterStatus of the
server version, ReadyForQuery. -/
def handshakeBytes (s : TCPServer) : List Byte :=
  [0x4e] ++ [0x52, 0x00, 0x00, 0x00, 0x08, 0x00, 0x00, 0x00, 0x00]
    ++ buildParameterStatus (ascii "TimeZone") s.timezone
    ++ buildParameterStatus (ascii "server_version") s.serverVersion
    ++ [0x5a, 0x00, 0x00, 0x00, 0x05, 0x49]

/-- The response of the specification to one query: the CommandComplete frame
for the handler's result (`OK` for an absent result), then ReadyForQuery. -/
def queryResponse (s : TCPServer) (payload : List Byte) : List Byte :=
  (match (s.qryHandler payload).1 with
    | none => [0x43, 0x00, 0x00, 0x00, 0x07, 0x4f, 0x4b, 0x00]
    | some r => buildCompletedResponse r)
    ++ [0x5a, 0x00, 0x00, 0x00, 0x05, 0x49]

/-- The payloads of the query frames before the first Terminate frame, in
stream order. -/
def sessionQueries : List (Byte × List Byte) → List (List Byte)
  | [] => []
  | (tag, payload) :: fs =>
    if tag = 0x58 then []
    else if tag = 0x51 then payload :: sessionQueries fs
    else sessionQueries fs

/-- The bytes of the frames that follow the first Terminate frame. -/
def afterTerminate : List (Byte × List Byte) → List Byte
  | [] => []
  | (tag, _) :: fs => if tag = 0x58 then framesBytes fs else afterTerminate fs

/-- A handler that answers as `h` does, with the bytes `OK` where `h` returns
an absent result. -/
def okResult (h : QueryHandler) : QueryHandler :=
  fun q =>
    match (h q).1 with
    | none => (some [0x4f, 0x4b], (h q).2)
    | some r => (some r, (h q).2)

/-! ### The handler with memory

A handler is a Go closure: it may keep state between calls, and the `[]byte` it
returns may share its backing array with what it keeps. The definitions above
take the handler as a function of the query, which is all that one pass of the
loop needs. The definitions below thread the handler's state and memory through
the session, with the store that `append(body, 0x00)` (server.go:148) makes
into the returned slice. -/

/-- The memory the handler keeps between calls: the backing arrays of its byte
slices, by index. -/
abbrev Heap := List (List Byte)

/-- A non-nil `[]byte` returned by the handler: a slice header over the backing
array `arr`, starting at `lo`, with `len` elements and capacity `cap`. -/
structure Slice where
  arr : Nat
  lo : Nat
  len : Nat
  cap : Nat
  deriving DecidableEq, Repr

/-- The elements of a slice. -/
def Slice.bytes (b : Slice) (heap : Heap) : List Byte :=
  ((heap.getD b.arr []).drop b.lo).take b.len

/-- The effect on memory of `body = append(body, 0x00)` (server.go:148): with
spare capacity the NUL is stored into the backing array at index `len` of the
slice; without, `append` allocates a new array and the memory of the handler
stays as it is. -/
def appendNul (heap : Heap) (b : Slice) : Heap :=
  if b.len < b.cap then
    heap.set b.arr ((heap.getD b.arr []).set (b.lo + b.len) 0x00)
  else heap

/-- A query handler `func(qry []byte) ([]byte, error)` with memory: from its
state, its memory and the query it gives the result (`nil` or a slice), the
error, and its state and memory afterwards. -/
structure StatefulHandler (σ : Type) where
  call : σ → Heap → List Byte → (Option Slice × Option GoError) × σ × Heap

/-- The state of one session with the state and memory of the handler. -/
structure Session (σ : Type) where
  conn : Conn
  calls : List (List Byte)
  hstate : σ
  heap : Heap
  deriving DecidableEq, Repr

/-- How `handleConnection` ends, with the state and memory of the handler. -/
inductive OutcomeMem (σ : Type) where
  | returned (st : Session σ)
  | exited (st : Session σ)
  | panicked (msg : String) (st : Session σ)
  | outOfFuel
  deriving DecidableEq, Repr

/-- One pass through the body of the `for` loop: go round again, or stop. -/
inductive StepMem (σ : Type) where
  | next (st : Session σ)
  | stop (o : OutcomeMem σ)
  deriving DecidableEq, Repr

/-- The body of the `for` loop of `handleConnection` (server.go:85-114) with the
handler's memory: the handler is called on its current state and memory; the
CommandComplete frame is built from the elements of the slice it returned; the
NUL appended by `buildCompletedResponse` is stored into that slice's array. -/
def loopBodyMem {σ : Type} (h : StatefulHandler σ) (st : Session σ) : StepMem σ :=
  match readMessage st.conn with
  | .panicked m c1 => .stop (.panicked m { st with conn := c1.close })
  | .err e c1 =>
    if errorsIsEOF e then .stop (.returned { st with conn := c1.close })
    else .stop (.exited { st with conn := c1 })
  | .ok (typ, msg) c1 =>
    match typ with
    | [] => .stop (.panicked "index out of range [0]" { st with conn := c1.close })
    | t :: _ =>
      if t = 0x58 then .stop (.returned { st with conn := c1.close })
      else if t = 0x51 then
        let r := h.call st.hstate st.heap msg
        match r.1.1 with
        | none =>
          .next { conn := (c1.write acceptMsg).write readyForQuery,
                  calls := st.calls ++ [msg], hstate := r.2.1, heap := r.2.2 }
        | some b =>
          .next { conn := (c1.write (buildCompletedResponse (b.bytes r.2.2))).write
                    readyForQuery,
                  calls := st.calls ++ [msg], hstate := r.2.1, heap := appendNul r.2.2 b }
      else .next { st with conn := c1 }

/-- The `for` loop of `handleConnection` with the handler's memory, with fuel
for the number of passes. -/
def handleLoopMem {σ : Type} (h : StatefulHandler σ) : Nat → Session σ → OutcomeMem σ
  | 0, _ => .outOfFuel
  | fuel + 1, st =>
    match loopBodyMem h st with
    | .stop o => o
    | .next st1 => handleLoopMem h fuel st1

/-- The frame loop with the handler's memory and fuel enough for the whole
stream. -/
def serveMem {σ : Type} (h : StatefulHandler σ) (st : Session σ) : OutcomeMem σ :=
  handleLoopMem h (streamSize st.conn.input + 1) st

/-- The method `TCPServer.handleConnection` (server.go:80) with the handler's
memory; `s` gives the parameters of the handshake, `h` is the handler, `hs` and
`heap` are its state and memory when the connection is accepted. -/
def handleConnectionMem {σ : Type} (s : TCPServer) (h : StatefulHandler σ) (c : Conn)
    (hs : σ) (heap : Heap) : OutcomeMem σ :=
  match startup s c with
  | .panicked m c1 => .panicked m { conn := c1, calls := [], hstate := hs, heap := heap }
  | .err _ c1 => serveMem h { conn := c1, calls := [], hstate := hs, heap := heap }
  | .ok _ c1 => serveMem h { conn := c1, calls := [], hstate := hs, heap := heap }

/-- The results the handler returns when it is called once with each of the
queries, in order: `none` for `nil`, the elements of the returned slice
otherwise; with them the state and memory of the handler at the end. Between
two calls the memory holds the NUL that the server appended to the previous
result, when that result had spare capacity. -/
def handlerRun {σ : Type} (h : StatefulHandler σ) :
    σ → Heap → List (List Byte) → List (Option (List Byte)) × σ × Heap
  | hs, heap, [] => ([], hs, heap)
  | hs, heap, q :: qs =>
    let r := h.call hs heap q
    match r.1.1 with
    | none =>
      let t := handlerRun h r.2.1 r.2.2 qs
      (none :: t.1, t.2)
    | some b =>
      let t := handlerRun h r.2.1 (appendNul r.2.2 b) qs
      (some (b.bytes r.2.2) :: t.1, t.2)

/-- The responses of the specification to a sequence of handler results: for
each the CommandComplete frame (`OK` for an absent result) and ReadyForQuery. -/
def responsesOf : List (Option (List Byte)) → List Byte
  | [] => []
  | none :: rs =>
    [0x43, 0x00, 0x00, 0x00, 0x07, 0x4f, 0x4b, 0x00]
      ++ [0x5a, 0x00, 0x00, 0x00, 0x05, 0x49] ++ responsesOf rs
  | some r :: rs =>
    buildCompletedResponse r ++ [0x5a, 0x00, 0x00, 0x00, 0x05, 0x49] ++ responsesOf rs

/-- A handler that keeps the four bytes `OKAY` in one array and returns its
first two bytes at the first call, all four at every later call; its state is
the number of calls so far. -/
def tableHandler : StatefulHandler Nat :=
  { call := fun n heap _ =>
      if n = 0 then ((some ⟨0, 0, 2, 4⟩, none), 1, heap)
      else ((some ⟨0, 0, 4, 4⟩, none), n + 1, heap) }

/-- The memory of `tableHandler` at the start: the array `OKAY`. -/
def tableHeap : Heap := [[0x4f, 0x4b, 0x41, 0x59]]

/-- A handler without memory of its own: it answers as the function `q` does and
returns every result in a new array without spare capacity. -/
def freshHandler (q : QueryHandler) : StatefulHandler Unit :=
  { call := fun _ heap msg =>
      match (q msg).1 with
      | none => ((none, (q msg).2), (), heap)
      | some r => ((some ⟨heap.length, 0, r.length, r.length⟩, (q msg).2), (), heap ++ [r]) }

/-- The session state without the state and memory of the handler. -/
def Session.toState {σ : Type} (st : Session σ) : State :=
  { conn := st.conn, calls := st.calls }

/-- The outcome without the state and memory of the handler. -/
def OutcomeMem.toOutcome {σ : Type} : OutcomeMem σ → Outcome
  | .returned st => .returned st.toState
  | .exited st => .exited st.toState
  | .panicked m st => .panicked m st.toState
  | .outOfFuel => .outOfFuel

/-! ## Reading from a stream that delivers in full -/

theorem toByte_val (v : Nat) : (toByte v).val = v % 256 := rfl

theorem bigEndianUint32_putUint32 (v : Nat) (h : v < 2 ^ 32) (rest : List Byte) :
    bigEndianUint32 (putUint32 v ++ rest) = some v := by
  simp only [putUint32, bigEndianUint32, List.cons_append, List.nil_append, toByte_val,
    Option.some.injEq]
  omega

theorem read_deliver (xs ys : List Byte) (later : List Chunk) (out : List Byte) (cl : Bool)
    (len : Int) (h : len = xs.length) :
    read ⟨deliver (xs ++ ys) later, out, cl⟩ len = .ok xs ⟨deliver ys later, out, cl⟩ := by
  subst h
  cases xs with
  | nil => simp [read, Conn.read]
  | cons x xs =>
    have h0 : ¬ (((x :: xs).length : Nat) : Int) < 0 := by omega
    simp only [read, h0, if_false, Int.toNat_ofNat, Conn.read, List.length_cons,
      Nat.add_one_ne_zero, deliver, List.cons_append, List.length_append]
    cases ys with
    | nil => simp [deliver]; omega
    | cons y ys => simp [deliver]; omega

theorem readMessage_frame (tag : Byte) (payload rest : List Byte) (later : List Chunk)
    (out : List Byte) (cl : Bool) (h : payload.length + 4 < 2 ^ 32) :
    readMessage ⟨deliver (frame tag payload ++ rest) later, out, cl⟩
      = .ok ([tag], payload) ⟨deliver rest later, out, cl⟩ := by
  have e1 : frame tag payload ++ rest
      = [tag] ++ (putUint32 (4 + payload.length) ++ (payload ++ rest)) := by
    simp [frame]
  have r1 := read_deliver [tag] (putUint32 (4 + payload.length) ++ (payload ++ rest))
    later out cl 1 rfl
  have r2 := read_deliver (putUint32 (4 + payload.length)) (payload ++ rest) later out cl 4 rfl
  have r3 := read_deliver payload rest later out cl (((4 + payload.length : Nat) : Int) - 4)
    (by omega)
  have hv : bigEndianUint32 (putUint32 (4 + payload.length)) = some (4 + payload.length) := by
    have := bigEndianUint32_putUint32 (4 + payload.length) (by omega) []
    simpa using this
  rw [e1]
  simp only [readMessage, r1, r2, hv, r3]

theorem buildCompletedResponse_eq_frame (body : List Byte) (h : body.length + 5 < 2 ^ 32) :
    buildCompletedResponse body = frame 0x43 (body ++ [0x00]) := by
  have e : uint32 (body.length + 1 + 4) = 4 + (body.length + 1) := by
    unfold uint32
    rw [Nat.mod_eq_of_lt (by omega)]
    omega
  simp [buildCompletedResponse, frame, e]

theorem buildParameterStatus_eq_frame (name value : List Byte)
    (h : name.length + value.length + 6 < 2 ^ 32) :
    buildParameterStatus name value = frame 0x53 (name ++ [0x00] ++ value ++ [0x00]) := by
  have e : uint32 (4 + (name.length + 1) + (value.length + 1))
      = 4 + (name.length + 1 + value.length + 1) := by
    unfold uint32
    rw [Nat.mod_eq_of_lt (by omega)]
    omega
  simp only [buildParameterStatus, frame, List.length_append, List.length_singleton, e,
    List.append_assoc]
  have e2 : 4 + (name.length + 1 + value.length + 1)
      = 4 + (name.length + (1 + (value.length + 1))) := by omega
  rw [e2]

/-! ## Fuel: the frame loop is total -/

theorem connRead_size_le (c : Conn) (n : Nat) :
    streamSize (c.read n).2.input ≤ streamSize c.input := by
  obtain ⟨input, out, cl⟩ := c
  unfold Conn.read
  by_cases hn : n = 0
  · simp [hn]
  · simp only [hn, if_false]
    match input with
    | [] => simp
    | .fail m :: rest => simp [streamSize]
    | .data bs :: rest =>
      simp only
      split
      · simp only [streamSize]; omega
      · simp only [streamSize, List.length_drop]; omega

theorem connRead_size_lt (c : Conn) (n : Nat) (hn : 0 < n) (bs : List Byte)
    (h : (c.read n).1 = .ok bs) :
    streamSize (c.read n).2.input < streamSize c.input := by
  obtain ⟨input, out, cl⟩ := c
  have hn0 : n ≠ 0 := by omega
  unfold Conn.read at h ⊢
  simp only [hn0, if_false] at h ⊢
  match input with
  | [] => simp at h
  | .fail m :: rest => simp at h
  | .data cs :: rest =>
    simp only
    split
    · simp only [streamSize]; omega
    · simp only [streamSize, List.length_drop]; omega

theorem read_size_le (c c1 : Conn) (len : Int) (bs : List Byte) (h : read c len = .ok bs c1) :
    streamSize c1.input ≤ streamSize c.input := by
  unfold read at h
  split at h
  · cases h
  · have hle := connRead_size_le c len.toNat
    split at h
    · cases h
    · rename_i heq
      cases h
      rw [heq] at hle
      exact hle

theorem read_size_lt (c c1 : Conn) (len : Int) (bs : List Byte) (hlen : 0 < len)
    (h : read c len = .ok bs c1) :
    streamSize c1.input < streamSize c.input := by
  unfold read at h
  split at h
  · cases h
  · split at h
    · cases h
    · rename_i buf c2 heq
      cases h
      have hlt := connRead_size_lt c len.toNat (by omega) bs (by rw [heq])
      rw [heq] at hlt
      exact hlt

theorem readMessage_size_lt (c c1 : Conn) (r : List Byte × List Byte)
    (h : readMessage c = .ok r c1) : streamSize c1.input < streamSize c.input := by
  unfold readMessage at h
  split at h
  · cases h
  · cases h
  · rename_i typ c2 h1
    have s1 := read_size_lt c c2 1 typ (by decide) h1
    split at h
    · cases h
    · cases h
    · rename_i len c3 h2
      have s2 := read_size_le c2 c3 4 len h2
      split at h
      · cases h
      · rename_i v hv
        split at h
        · cases h
        · cases h
        · rename_i message c4 h3
          have s3 := read_size_le c3 c4 _ message h3
          cases h
          omega

theorem loopBody_size_lt (s : TCPServer) (st st1 : State) (h : loopBody s st = .next st1) :
    streamSize st1.conn.input < streamSize st.conn.input := by
  unfold loopBody at h
  split at h
  · cases h
  · split at h <;> cases h
  · rename_i typ msg c1 hr
    have hs := readMessage_size_lt st.conn c1 (typ, msg) hr
    split at h
    · cases h
    · split at h
      · cases h
      · split at h
        · cases h
          simp only [Conn.write]
          split <;> exact hs
        · cases h
          exact hs

theorem handleLoop_fuel (s : TCPServer) :
    ∀ (f g : Nat) (st : State), streamSize st.conn.input < f → streamSize st.conn.input < g →
      handleLoop s f st = handleLoop s g st := by
  intro f
  induction f with
  | zero => intro g st hf; omega
  | succ f ih =>
    intro g st hf hg
    cases g with
    | zero => omega
    | succ g =>
      simp only [handleLoop]
      cases hb : loopBody s st with
      | stop o => rfl
      | next st1 =>
        have := loopBody_size_lt s st st1 hb
        exact ih g st1 (by omega) (by omega)

theorem handleLoop_eq_serve (s : TCPServer) (f : Nat) (st : State)
    (h : streamSize st.conn.input < f) : handleLoop s f st = serve s st :=
  handleLoop_fuel s f _ st h (Nat.lt_succ_self _)

theorem serve_step (s : TCPServer) (st st1 : State) (h : loopBody s st = .next st1) :
    serve s st = serve s st1 := by
  have hlt := loopBody_size_lt s st st1 h
  unfold serve
  simp only [handleLoop, h]
  exact handleLoop_fuel s _ _ st1 (by omega) (Nat.lt_succ_self _)

/-! ## The handshake and the frame builders -/

/-- C1: for every server configuration and every startup packet with length
field `L >= 4` followed by `L - 4` body bytes, delivered in full, `startup`
returns no error and the bytes it writes are exactly the decline byte `0x4e`,
the AuthenticationOk frame, `buildParameterStatus("TimeZone", tz)`,
`buildParameterStatus("server_version", v)` and the ReadyForQuery frame, in
this order; the packet is consumed and the rest of the stream is left. -/
theorem startup_response (s : TCPServer) (L : Nat) (body rest : List Byte)
    (later : List Chunk) (out : List Byte) (cl : Bool)
    (hL : 4 ≤ L) (hL32 : L < 2 ^ 32) (hbody : body.length = L - 4) :
    startup s ⟨deliver (putUint32 L ++ body ++ rest) later, out, cl⟩
      = .ok () ⟨deliver rest later,
          out ++ [0x4e] ++ [0x52, 0x00, 0x00, 0x00, 0x08, 0x00, 0x00, 0x00, 0x00]
            ++ buildParameterStatus (ascii "TimeZone") s.timezone
            ++ buildParameterStatus (ascii "server_version") s.serverVersion
            ++ [0x5a, 0x00, 0x00, 0x00, 0x05, 0x49], cl⟩ := by
  have r1 := read_deliver (putUint32 L) (body ++ rest) later out cl 4 rfl
  have r2 := read_deliver body rest later (out ++ [0x4e]) cl ((L : Int) - 4) (by omega)
  have hv : bigEndianUint32 (putUint32 L) = some L := by
    have := bigEndianUint32_putUint32 L hL32 []
    simpa using this
  rw [List.append_assoc]
  simp only [startup, r1, Conn.write, hv, r2, buildParameters, authenticationOk,
    readyForQuery, List.append_assoc]

/-- Witness of C1: the minimal startup packet of total length 8 on the server
with the default parameters. -/
theorem startup_response_witness :
    startup absentServer ⟨deliver (putUint32 8 ++ [0x00, 0x03, 0x00, 0x00] ++ []) [], [], false⟩
      = .ok () ⟨deliver [] [],
          [] ++ [0x4e] ++ [0x52, 0x00, 0x00, 0x00, 0x08, 0x00, 0x00, 0x00, 0x00]
            ++ buildParameterStatus (ascii "TimeZone") absentServer.timezone
            ++ buildParameterStatus (ascii "server_version") absentServer.serverVersion
            ++ [0x5a, 0x00, 0x00, 0x00, 0x05, 0x49], false⟩ :=
  startup_response absentServer 8 [0x00, 0x03, 0x00, 0x00] [] [] [] false
    (by decide) (by decide) rfl

/-- C2: within the 32-bit limit `buildParameterStatus(name, value)` is the byte
`0x53`, the 4-byte big-endian encoding of `4 + len(name) + 1 + len(value) + 1`,
then `name`, NUL, `value`, NUL; the length field decodes to 4 plus the length
of the payload, and the frame is one byte longer than the length field says. -/
theorem buildParameterStatus_format (name value : List Byte)
    (h : name.length + value.length + 6 < 2 ^ 32) :
    buildParameterStatus name value
        = [0x53] ++ putUint32 (4 + name.length + 1 + value.length + 1)
            ++ name ++ [0x00] ++ value ++ [0x00]
      ∧ bigEndianUint32 ((buildParameterStatus name value).drop 1)
        = some (4 + (name ++ [0x00] ++ value ++ [0x00]).length)
      ∧ (buildParameterStatus name value).length
        = (4 + (name ++ [0x00] ++ value ++ [0x00]).length) + 1 := by
  have e := buildParameterStatus_eq_frame name value h
  have e2 : 4 + name.length + 1 + value.length + 1
      = 4 + (name ++ [0x00] ++ value ++ [0x00]).length := by
    simp only [List.length_append, List.length_singleton]
    omega
  have hlen : (name ++ [(0x00 : Byte)] ++ value ++ [0x00]).length
      = name.length + value.length + 2 := by
    simp only [List.length_append, List.length_singleton]
    omega
  refine ⟨?_, ?_, ?_⟩
  · rw [e, e2]
    simp [frame]
  · rw [e]
    have := bigEndianUint32_putUint32 (4 + (name ++ [(0x00 : Byte)] ++ value ++ [0x00]).length)
      (by omega) (name ++ [0x00] ++ value ++ [0x00])
    simpa [frame] using this
  · rw [e]
    simp [frame, putUint32]
    omega

/-- Witness of C2: the frame for `TimeZone` = `UTC`. -/
theorem buildParameterStatus_format_witness :
    (ascii "TimeZone").length + (ascii "UTC").length + 6 < 2 ^ 32
      ∧ (buildParameterStatus (ascii "TimeZone") (ascii "UTC")
          = [0x53] ++ putUint32 (4 + (ascii "TimeZone").length + 1 + (ascii "UTC").length + 1)
              ++ ascii "TimeZone" ++ [0x00] ++ ascii "UTC" ++ [0x00]
        ∧ bigEndianUint32 ((buildParameterStatus (ascii "TimeZone") (ascii "UTC")).drop 1)
          = some (4 + (ascii "TimeZone" ++ [0x00] ++ ascii "UTC" ++ [0x00]).length)
        ∧ (buildParameterStatus (ascii "TimeZone") (ascii "UTC")).length
          = (4 + (ascii "TimeZone" ++ [0x00] ++ ascii "UTC" ++ [0x00]).length) + 1) :=
  ⟨by decide, buildParameterStatus_format (ascii "TimeZone") (ascii "UTC") (by decide)⟩

/-- C3: within the 32-bit limit `buildCompletedResponse(body)` is the byte
`0x43`, the 4-byte big-endian encoding of `4 + len(body) + 1`, then `body` and
one NUL byte; the length field decodes to 4 plus the length of the payload. -/
theorem buildCompletedResponse_format (body : List Byte) (h : body.length + 5 < 2 ^ 32) :
    buildCompletedResponse body
        = [0x43] ++ putUint32 (4 + body.length + 1) ++ body ++ [0x00]
      ∧ bigEndianUint32 ((buildCompletedResponse body).drop 1)
        = some (4 + (body ++ [0x00]).length) := by
  have e := buildCompletedResponse_eq_frame body h
  refine ⟨?_, ?_⟩
  · rw [e]
    simp [frame, Nat.add_assoc]
  · rw [e]
    have := bigEndianUint32_putUint32 (4 + (body ++ [(0x00 : Byte)]).length)
      (by simp only [List.length_append, List.length_singleton]; omega) (body ++ [0x00])
    simpa [frame] using this

/-- Witness of C3: the completion frame for the two bytes `OK`. -/
theorem buildCompletedResponse_format_witness :
    (ascii "OK").length + 5 < 2 ^ 32
      ∧ (buildCompletedResponse (ascii "OK")
          = [0x43] ++ putUint32 (4 + (ascii "OK").length + 1) ++ ascii "OK" ++ [0x00]
        ∧ bigEndianUint32 ((buildCompletedResponse (ascii "OK")).drop 1)
          = some (4 + (ascii "OK" ++ [0x00]).length)) :=
  ⟨by decide, buildCompletedResponse_format (ascii "OK") (by decide)⟩

/-- C4: round trip. On a stream that starts with `buildCompletedResponse(body)`,
with `buildParameterStatus(name, value)`, with the AuthenticationOk constant or
with the ReadyForQuery constant, delivered in full, `readMessage` returns no
error, the frame's type tag and exactly the frame's payload, and consumes
exactly that frame, leaving the rest of the stream. -/
theorem readMessage_roundtrip (body name value rest : List Byte) (later : List Chunk)
    (out : List Byte) (cl : Bool) (hb : body.length + 5 < 2 ^ 32)
    (hn : name.length + value.length + 6 < 2 ^ 32) :
    readMessage ⟨deliver (buildCompletedResponse body ++ rest) later, out, cl⟩
        = .ok ([0x43], body ++ [0x00]) ⟨deliver rest later, out, cl⟩
      ∧ readMessage ⟨deliver (buildParameterStatus name value ++ rest) later, out, cl⟩
        = .ok ([0x53], name ++ [0x00] ++ value ++ [0x00]) ⟨deliver rest later, out, cl⟩
      ∧ readMessage ⟨deliver (authenticationOk ++ rest) later, out, cl⟩
        = .ok ([0x52], [0x00, 0x00, 0x00, 0x00]) ⟨deliver rest later, out, cl⟩
      ∧ readMessage ⟨deliver (readyForQuery ++ rest) later, out, cl⟩
        = .ok ([0x5a], [0x49]) ⟨deliver rest later, out, cl⟩ := by
  refine ⟨?_, ?_, ?_, ?_⟩
  · rw [buildCompletedResponse_eq_frame body hb]
    exact readMessage_frame 0x43 (body ++ [0x00]) rest later out cl
      (by simp only [List.length_append, List.length_singleton]; omega)
  · rw [buildParameterStatus_eq_frame name value hn]
    exact readMessage_frame 0x53 (name ++ [0x00] ++ value ++ [0x00]) rest later out cl
      (by simp only [List.length_append, List.length_singleton]; omega)
  · have e : authenticationOk = frame 0x52 [0x00, 0x00, 0x00, 0x00] := by decide
    rw [e]
    exact readMessage_frame 0x52 [0x00, 0x00, 0x00, 0x00] rest later out cl (by decide)
  · have e : readyForQuery = frame 0x5a [0x49] := by decide
    rw [e]
    exact readMessage_frame 0x5a [0x49] rest later out cl (by decide)

/-- Witness of C4: the frames for `OK` and for `TimeZone` = `UTC`, each followed
by a Terminate frame that stays in the stream. -/
theorem readMessage_roundtrip_witness :
    readMessage ⟨deliver (buildCompletedResponse (ascii "OK") ++ [0x58, 0, 0, 0, 4]) [], [], false⟩
        = .ok ([0x43], ascii "OK" ++ [0x00]) ⟨deliver [0x58, 0, 0, 0, 4] [], [], false⟩
      ∧ readMessage ⟨deliver (buildParameterStatus (ascii "TimeZone") (ascii "UTC")
            ++ [0x58, 0, 0, 0, 4]) [], [], false⟩
        = .ok ([0x53], ascii "TimeZone" ++ [0x00] ++ ascii "UTC" ++ [0x00])
            ⟨deliver [0x58, 0, 0, 0, 4] [], [], false⟩
      ∧ readMessage ⟨deliver (authenticationOk ++ [0x58, 0, 0, 0, 4]) [], [], false⟩
        = .ok ([0x52], [0x00, 0x00, 0x00, 0x00]) ⟨deliver [0x58, 0, 0, 0, 4] [], [], false⟩
      ∧ readMessage ⟨deliver (readyForQuery ++ [0x58, 0, 0, 0, 4]) [], [], false⟩
        = .ok ([0x5a], [0x49]) ⟨deliver [0x58, 0, 0, 0, 4] [], [], false⟩ :=
  readMessage_roundtrip (ascii "OK") (ascii "TimeZone") (ascii "UTC") [0x58, 0, 0, 0, 4] [] []
    false (by decide) (by decide)


/-! ## The query dispatcher -/

theorem loopBody_frame (s : TCPServer) (tag : Byte) (payload rest : List Byte)
    (later : List Chunk) (out : List Byte) (cl : Bool) (calls : List (List Byte))
    (h : payload.length + 4 < 2 ^ 32) :
    loopBody s ⟨⟨deliver (frame tag payload ++ rest) later, out, cl⟩, calls⟩
      = if tag = 0x58 then .stop (.returned ⟨⟨deliver rest later, out, true⟩, calls⟩)
        else if tag = 0x51 then
          .next ⟨⟨deliver rest later,
              (match (s.qryHandler payload).1 with
                | none => out ++ acceptMsg
                | some r => out ++ buildCompletedResponse r) ++ readyForQuery, cl⟩,
            calls ++ [payload]⟩
        else .next ⟨⟨deliver rest later, out, cl⟩, calls⟩ := by
  simp only [loopBody, readMessage_frame tag payload rest later out cl h, Conn.close, Conn.write]
  split
  · rfl
  · split
    · cases (s.qryHandler payload).1 <;> rfl
    · rfl

/-- C5: for a simple-query frame with any payload, delivered in full, when the
handler returns an absent result and no error, the loop of `handleConnection`
writes exactly `43 00 00 00 07 4f 4b 00` followed by `5a 00 00 00 05 49` and
nothing else, calls the handler once with the payload, consumes exactly the
frame, and goes on with the next frame. -/
theorem query_absent_response (s : TCPServer) (payload rest : List Byte) (later : List Chunk)
    (out : List Byte) (cl : Bool) (calls : List (List Byte))
    (h : payload.length + 4 < 2 ^ 32) (hh : s.qryHandler payload = (none, none)) :
    loopBody s ⟨⟨deliver (frame 0x51 payload ++ rest) later, out, cl⟩, calls⟩
        = .next ⟨⟨deliver rest later,
            out ++ [0x43, 0x00, 0x00, 0x00, 0x07, 0x4f, 0x4b, 0x00]
              ++ [0x5a, 0x00, 0x00, 0x00, 0x05, 0x49], cl⟩, calls ++ [payload]⟩
      ∧ ∀ fuel, handleLoop s (fuel + 1)
            ⟨⟨deliver (frame 0x51 payload ++ rest) later, out, cl⟩, calls⟩
          = handleLoop s fuel ⟨⟨deliver rest later,
              out ++ [0x43, 0x00, 0x00, 0x00, 0x07, 0x4f, 0x4b, 0x00]
                ++ [0x5a, 0x00, 0x00, 0x00, 0x05, 0x49], cl⟩, calls ++ [payload]⟩ := by
  have hb : loopBody s ⟨⟨deliver (frame 0x51 payload ++ rest) later, out, cl⟩, calls⟩
      = .next ⟨⟨deliver rest later,
          out ++ [0x43, 0x00, 0x00, 0x00, 0x07, 0x4f, 0x4b, 0x00]
            ++ [0x5a, 0x00, 0x00, 0x00, 0x05, 0x49], cl⟩, calls ++ [payload]⟩ := by
    rw [loopBody_frame s 0x51 payload rest later out cl calls h, hh]
    rfl
  refine ⟨hb, fun fuel => ?_⟩
  simp only [handleLoop, hb]

/-- Witness of C5: the query `SELECT 1` with its NUL, followed by a Terminate
frame, on the server whose handler returns an absent result. -/
theorem query_absent_response_witness :
    loopBody absentServer ⟨⟨deliver (frame 0x51 select1 ++ [0x58, 0, 0, 0, 4]) [], [], false⟩, []⟩
        = .next ⟨⟨deliver [0x58, 0, 0, 0, 4] [],
            [] ++ [0x43, 0x00, 0x00, 0x00, 0x07, 0x4f, 0x4b, 0x00]
              ++ [0x5a, 0x00, 0x00, 0x00, 0x05, 0x49], false⟩, [] ++ [select1]⟩
      ∧ ∀ fuel, handleLoop absentServer (fuel + 1)
            ⟨⟨deliver (frame 0x51 select1 ++ [0x58, 0, 0, 0, 4]) [], [], false⟩, []⟩
          = handleLoop absentServer fuel ⟨⟨deliver [0x58, 0, 0, 0, 4] [],
              [] ++ [0x43, 0x00, 0x00, 0x00, 0x07, 0x4f, 0x4b, 0x00]
                ++ [0x5a, 0x00, 0x00, 0x00, 0x05, 0x49], false⟩, [] ++ [select1]⟩ :=
  query_absent_response absentServer select1 [0x58, 0, 0, 0, 4] [] [] false []
    (by decide) rfl

/-- C6: for a simple-query frame, delivered in full, when the handler returns
the bytes `B` (the empty non-absent sequence included) and no error, the loop
of `handleConnection` writes exactly `buildCompletedResponse(B)` followed by
`5a 00 00 00 05 49` and nothing else, and goes on with the next frame; within
the 32-bit limit `buildCompletedResponse(B)` is `0x43`, the big-endian length
`5 + len(B)`, `B`, NUL. -/
theorem query_bytes_response (s : TCPServer) (payload B rest : List Byte) (later : List Chunk)
    (out : List Byte) (cl : Bool) (calls : List (List Byte))
    (h : payload.length + 4 < 2 ^ 32) (hh : s.qryHandler payload = (some B, none)) :
    loopBody s ⟨⟨deliver (frame 0x51 payload ++ rest) later, out, cl⟩, calls⟩
        = .next ⟨⟨deliver rest later,
            out ++ buildCompletedResponse B ++ [0x5a, 0x00, 0x00, 0x00, 0x05, 0x49], cl⟩,
            calls ++ [payload]⟩
      ∧ (∀ fuel, handleLoop s (fuel + 1)
            ⟨⟨deliver (frame 0x51 payload ++ rest) later, out, cl⟩, calls⟩
          = handleLoop s fuel ⟨⟨deliver rest later,
              out ++ buildCompletedResponse B ++ [0x5a, 0x00, 0x00, 0x00, 0x05, 0x49], cl⟩,
              calls ++ [payload]⟩)
      ∧ (B.length + 5 < 2 ^ 32 →
          buildCompletedResponse B = [0x43] ++ putUint32 (5 + B.length) ++ B ++ [0x00]) := by
  have hb : loopBody s ⟨⟨deliver (frame 0x51 payload ++ rest) later, out, cl⟩, calls⟩
      = .next ⟨⟨deliver rest later,
          out ++ buildCompletedResponse B ++ [0x5a, 0x00, 0x00, 0x00, 0x05, 0x49], cl⟩,
          calls ++ [payload]⟩ := by
    rw [loopBody_frame s 0x51 payload rest later out cl calls h, hh]
    rfl
  refine ⟨hb, fun fuel => ?_, fun hB => ?_⟩
  · simp only [handleLoop, hb]
  · have e : 4 + (B ++ [(0x00 : Byte)]).length = 5 + B.length := by
      simp only [List.length_append, List.length_singleton]
      omega
    rw [buildCompletedResponse_eq_frame B hB]
    simp only [frame, e, List.append_assoc]

/-- Witness of C6: the handler returns the empty, non-absent byte sequence. -/
theorem query_bytes_response_witness :
    loopBody (bytesServer []) ⟨⟨deliver (frame 0x51 select1 ++ []) [], [], false⟩, []⟩
        = .next ⟨⟨deliver [] [],
            [] ++ buildCompletedResponse [] ++ [0x5a, 0x00, 0x00, 0x00, 0x05, 0x49], false⟩,
            [] ++ [select1]⟩
      ∧ (∀ fuel, handleLoop (bytesServer []) (fuel + 1)
            ⟨⟨deliver (frame 0x51 select1 ++ []) [], [], false⟩, []⟩
          = handleLoop (bytesServer []) fuel ⟨⟨deliver [] [],
              [] ++ buildCompletedResponse [] ++ [0x5a, 0x00, 0x00, 0x00, 0x05, 0x49], false⟩,
              [] ++ [select1]⟩)
      ∧ (([] : List Byte).length + 5 < 2 ^ 32 →
          buildCompletedResponse [] = [0x43] ++ putUint32 (5 + ([] : List Byte).length)
            ++ [] ++ [0x00]) :=
  query_bytes_response (bytesServer []) select1 [] [] [] [] false [] (by decide) rfl

/-- For every server and every state, the loop body does the same as for the
server whose handler returns the same results and never an error: the error
value of the handler is not looked at (server.go:103-105). -/
theorem loopBody_error_ignored (s : TCPServer) (st : State) :
    loopBody s st
      = loopBody { s with qryHandler := fun q => ((s.qryHandler q).1, none) } st := by
  unfold loopBody
  rfl

/-- C7 (the code at the failing input): for the query `SELECT 1` and a handler
that returns an error and no result, the loop of `handleConnection` writes
exactly the successful CommandComplete `OK` and ReadyForQuery, the same bytes
as for the handler that returns no error; no error indication is written. -/
theorem handler_error_discarded :
    loopBody failingServer ⟨⟨deliver (frame 0x51 select1) [], [], false⟩, []⟩
        = .next ⟨⟨[], [0x43, 0x00, 0x00, 0x00, 0x07, 0x4f, 0x4b, 0x00,
            0x5a, 0x00, 0x00, 0x00, 0x05, 0x49], false⟩, [select1]⟩
      ∧ loopBody failingServer ⟨⟨deliver (frame 0x51 select1) [], [], false⟩, []⟩
        = loopBody absentServer ⟨⟨deliver (frame 0x51 select1) [], [], false⟩, []⟩ := by
  decide

/-- C8: when the next frame is Terminate (`58 00 00 00 04`), the loop of
`handleConnection` writes nothing, calls no handler and returns with the
connection closed, whatever follows in the stream: the suffix stays unread. -/
theorem terminate_stops_session (s : TCPServer) (rest : List Byte) (later : List Chunk)
    (out : List Byte) (cl : Bool) (calls : List (List Byte)) :
    loopBody s ⟨⟨deliver ([0x58, 0x00, 0x00, 0x00, 0x04] ++ rest) later, out, cl⟩, calls⟩
        = .stop (.returned ⟨⟨deliver rest later, out, true⟩, calls⟩)
      ∧ (∀ fuel, handleLoop s (fuel + 1)
            ⟨⟨deliver ([0x58, 0x00, 0x00, 0x00, 0x04] ++ rest) later, out, cl⟩, calls⟩
          = .returned ⟨⟨deliver rest later, out, true⟩, calls⟩)
      ∧ serve s ⟨⟨deliver ([0x58, 0x00, 0x00, 0x00, 0x04] ++ rest) later, out, cl⟩, calls⟩
          = .returned ⟨⟨deliver rest later, out, true⟩, calls⟩ := by
  have e : ([0x58, 0x00, 0x00, 0x00, 0x04] : List Byte) = frame 0x58 [] := by decide
  have hb : loopBody s
      ⟨⟨deliver ([0x58, 0x00, 0x00, 0x00, 0x04] ++ rest) later, out, cl⟩, calls⟩
      = .stop (.returned ⟨⟨deliver rest later, out, true⟩, calls⟩) := by
    rw [e, loopBody_frame s 0x58 [] rest later out cl calls (by decide)]
    rfl
  refine ⟨hb, fun fuel => ?_, ?_⟩
  · simp only [handleLoop, hb]
  · simp only [serve, handleLoop, hb]

/-- C9: a well-formed frame whose tag is neither `0x51` nor `0x58`, with any
payload, delivered in full: the loop of `handleConnection` writes nothing, does
not call the handler, consumes exactly that frame, and the session then runs
exactly as it runs on the stream without that frame. -/
theorem unknown_tag_skipped (s : TCPServer) (tag : Byte) (payload rest : List Byte)
    (later : List Chunk) (out : List Byte) (cl : Bool) (calls : List (List Byte))
    (hQ : tag ≠ 0x51) (hX : tag ≠ 0x58) (h : payload.length + 4 < 2 ^ 32) :
    loopBody s ⟨⟨deliver (frame tag payload ++ rest) later, out, cl⟩, calls⟩
        = .next ⟨⟨deliver rest later, out, cl⟩, calls⟩
      ∧ serve s ⟨⟨deliver (frame tag payload ++ rest) later, out, cl⟩, calls⟩
        = serve s ⟨⟨deliver rest later, out, cl⟩, calls⟩ := by
  have hb : loopBody s ⟨⟨deliver (frame tag payload ++ rest) later, out, cl⟩, calls⟩
      = .next ⟨⟨deliver rest later, out, cl⟩, calls⟩ := by
    rw [loopBody_frame s tag payload rest later out cl calls h, if_neg hX, if_neg hQ]
  exact ⟨hb, serve_step s _ _ hb⟩

/-- Witness of C9: a Parse frame (`0x50`) with two payload bytes, followed by a
query frame. -/
theorem unknown_tag_skipped_witness :
    loopBody absentServer
        ⟨⟨deliver (frame 0x50 [0x01, 0x02] ++ frame 0x51 select1) [], [], false⟩, []⟩
        = .next ⟨⟨deliver (frame 0x51 select1) [], [], false⟩, []⟩
      ∧ serve absentServer
          ⟨⟨deliver (frame 0x50 [0x01, 0x02] ++ frame 0x51 select1) [], [], false⟩, []⟩
        = serve absentServer ⟨⟨deliver (frame 0x51 select1) [], [], false⟩, []⟩ :=
  unknown_tag_skipped absentServer 0x50 [0x01, 0x02] (frame 0x51 select1) [] [] false []
    (by decide) (by decide) (by decide)

/-- On every stream that starts with a type tag and a length field of value
less than 4, delivered in full, `readMessage` does not return: allocating the
payload buffer of negative length panics. -/
theorem readMessage_short_length (tag : Byte) (v : Nat) (rest : List Byte)
    (later : List Chunk) (out : List Byte) (cl : Bool) (hv : v < 4) :
    readMessage ⟨deliver ([tag] ++ putUint32 v ++ rest) later, out, cl⟩
      = .panicked "makeslice: len out of range" ⟨deliver rest later, out, cl⟩ := by
  have r1 := read_deliver [tag] (putUint32 v ++ rest) later out cl 1 rfl
  have r2 := read_deliver (putUint32 v) rest later out cl 4 rfl
  have hd : bigEndianUint32 (putUint32 v) = some v := by
    have := bigEndianUint32_putUint32 v (by omega) []
    simpa using this
  have hneg : ((v : Int) - 4) < 0 := by omega
  have r3 : read ⟨deliver rest later, out, cl⟩ ((v : Int) - 4)
      = .panicked "makeslice: len out of range" ⟨deliver rest later, out, cl⟩ := by
    simp only [read, hneg, if_true]
  rw [List.append_assoc]
  simp only [readMessage, r1, r2, hd, r3]

/-- C10 (the code at the failing input): on the stream `51 00 00 00 03`
`readMessage` returns neither an error nor a payload, it panics; the panic
goes through `handleConnection`, which has no `recover`. -/
theorem readMessage_length_three :
    readMessage ⟨deliver [0x51, 0x00, 0x00, 0x00, 0x03] [], [], false⟩
        = .panicked "makeslice: len out of range" ⟨[], [], false⟩
      ∧ loopBody absentServer ⟨⟨deliver [0x51, 0x00, 0x00, 0x00, 0x03] [], [], false⟩, []⟩
        = .stop (.panicked "makeslice: len out of range" ⟨⟨[], [], true⟩, []⟩) := by
  decide


/-! ## Errors while reading a frame -/

theorem read_eof (out : List Byte) (cl : Bool) (len : Int) (h : 0 < len) :
    read ⟨[], out, cl⟩ len
      = .err (.wrapped "error reading from connection" .eof) ⟨[], out, cl⟩ := by
  have h0 : ¬ len < 0 := by omega
  have h1 : len.toNat ≠ 0 := by omega
  simp only [read, h0, if_false, Conn.read, h1]

theorem loopBody_err (s : TCPServer) (st : State) (e : GoError) (c1 : Conn)
    (hr : readMessage st.conn = .err e c1) :
    loopBody s st
      = if errorsIsEOF e then .stop (.returned ⟨c1.close, st.calls⟩)
        else .stop (.exited ⟨c1, st.calls⟩) := by
  simp only [loopBody, hr]

theorem serve_stop (s : TCPServer) (st : State) (o : Outcome) (h : loopBody s st = .stop o) :
    serve s st = o := by
  simp only [serve, handleLoop, h]

/-- C11 (counterexample): after a complete handshake a transport error other
than end-of-stream at the next frame ends the whole process through
`os.Exit(1)`; `handleConnection` does not return and does not close the
connection. -/
theorem read_error_exits_process :
    handleConnection absentServer
        ⟨deliver (putUint32 8 ++ [0x00, 0x03, 0x00, 0x00]) [.fail "connection reset by peer"],
          [], false⟩
        = .exited ⟨⟨[], handshakeBytes absentServer, false⟩, []⟩
      ∧ ∀ st, handleConnection absentServer
          ⟨deliver (putUint32 8 ++ [0x00, 0x03, 0x00, 0x00]) [.fail "connection reset by peer"],
            [], false⟩
          ≠ .returned st := by
  have h : handleConnection absentServer
        ⟨deliver (putUint32 8 ++ [0x00, 0x03, 0x00, 0x00]) [.fail "connection reset by peer"],
          [], false⟩
        = .exited ⟨⟨[], handshakeBytes absentServer, false⟩, []⟩ := by decide
  refine ⟨h, fun st hst => ?_⟩
  rw [h] at hst
  cases hst

/-- C11 (amended): when reading a frame returns an error, the loop of
`handleConnection` ends only the session (it returns, the connection closed)
if the error wraps `io.EOF`; for every other error it ends the whole process
through `os.Exit(1)`, the connection not closed by the handler. -/
theorem read_error_outcome (s : TCPServer) (st : State) (e : GoError) (c1 : Conn)
    (hr : readMessage st.conn = .err e c1) :
    (errorsIsEOF e = true →
        loopBody s st = .stop (.returned ⟨c1.close, st.calls⟩)
          ∧ serve s st = .returned ⟨c1.close, st.calls⟩)
      ∧ (errorsIsEOF e = false →
        loopBody s st = .stop (.exited ⟨c1, st.calls⟩)
          ∧ serve s st = .exited ⟨c1, st.calls⟩) := by
  have hb := loopBody_err s st e c1 hr
  constructor
  · intro he
    rw [he] at hb
    exact ⟨hb, serve_stop s st _ hb⟩
  · intro he
    rw [he] at hb
    exact ⟨hb, serve_stop s st _ hb⟩

/-- Witness of C11 (amended): a connection reset at a frame boundary. -/
theorem read_error_outcome_witness :
    (errorsIsEOF (.wrapped "error reading from connection" (.other "connection reset by peer"))
          = true →
        loopBody absentServer ⟨⟨[.fail "connection reset by peer"], [], false⟩, []⟩
            = .stop (.returned ⟨Conn.close ⟨[], [], false⟩, []⟩)
          ∧ serve absentServer ⟨⟨[.fail "connection reset by peer"], [], false⟩, []⟩
            = .returned ⟨Conn.close ⟨[], [], false⟩, []⟩)
      ∧ (errorsIsEOF (.wrapped "error reading from connection" (.other "connection reset by peer"))
          = false →
        loopBody absentServer ⟨⟨[.fail "connection reset by peer"], [], false⟩, []⟩
            = .stop (.exited ⟨⟨[], [], false⟩, []⟩)
          ∧ serve absentServer ⟨⟨[.fail "connection reset by peer"], [], false⟩, []⟩
            = .exited ⟨⟨[], [], false⟩, []⟩) :=
  read_error_outcome absentServer ⟨⟨[.fail "connection reset by peer"], [], false⟩, []⟩
    (.wrapped "error reading from connection" (.other "connection reset by peer"))
    ⟨[], [], false⟩ (by decide)

/-- C12 (counterexample): with four bytes in the stream, delivered two and
two, `read(c, 4)` returns two bytes and no error; a query frame whose payload
arrives in two chunks is decoded with the first chunk as its whole payload;
a frame whose length field arrives in two chunks makes `readMessage` panic. -/
theorem read_short_no_retry :
    read ⟨[.data [0x01, 0x02], .data [0x03, 0x04]], [], false⟩ 4
        = .ok [0x01, 0x02] ⟨[.data [0x03, 0x04]], [], false⟩
      ∧ readMessage ⟨[.data ([0x51] ++ putUint32 13 ++ ascii "SELE"),
            .data (ascii "CT 1" ++ [0x00])], [], false⟩
        = .ok ([0x51], ascii "SELE") ⟨[.data (ascii "CT 1" ++ [0x00])], [], false⟩
      ∧ readMessage ⟨[.data [0x51, 0x00, 0x00], .data ([0x00, 0x0d] ++ select1)], [], false⟩
        = .panicked "index out of range [3]" ⟨[.data ([0x00, 0x0d] ++ select1)], [], false⟩ := by
  decide

/-- C12 (amended): `read(c, n)` makes one `Read` call. When that call delivers a
chunk of fewer than `n` bytes, `read` returns just that chunk with no error
and does not retry, whatever follows in the stream; when the `n` bytes are
delivered in full, it returns exactly them. `readMessage` decodes a frame
whose bytes are delivered in full. -/
theorem read_single_call (bs xs ys : List Byte) (rest later : List Chunk) (out : List Byte)
    (cl : Bool) (n : Nat) (hshort : bs.length < n) :
    read ⟨.data bs :: rest, out, cl⟩ n = .ok bs ⟨rest, out, cl⟩
      ∧ read ⟨deliver (xs ++ ys) later, out, cl⟩ xs.length = .ok xs ⟨deliver ys later, out, cl⟩
      ∧ ∀ (tag : Byte) (payload : List Byte), payload.length + 4 < 2 ^ 32 →
          readMessage ⟨deliver (frame tag payload ++ ys) later, out, cl⟩
            = .ok ([tag], payload) ⟨deliver ys later, out, cl⟩ := by
  refine ⟨?_, read_deliver xs ys later out cl _ rfl, fun tag payload h =>
    readMessage_frame tag payload ys later out cl h⟩
  have h0 : ¬ ((n : Nat) : Int) < 0 := by omega
  have h1 : n ≠ 0 := by omega
  have h2 : bs.length ≤ n := by omega
  simp only [read, h0, if_false, Int.toNat_ofNat, Conn.read, h1, h2, if_true]

/-- Witness of C12 (amended): two bytes delivered to a read of four. -/
theorem read_single_call_witness :
    read ⟨.data [0x01, 0x02] :: [.data [0x03, 0x04]], [], false⟩ (4 : Nat)
        = .ok [0x01, 0x02] ⟨[.data [0x03, 0x04]], [], false⟩
      ∧ read ⟨deliver ([0x01, 0x02] ++ [0x03]) [], [], false⟩ ([0x01, 0x02] : List Byte).length
        = .ok [0x01, 0x02] ⟨deliver [0x03] [], [], false⟩
      ∧ ∀ (tag : Byte) (payload : List Byte), payload.length + 4 < 2 ^ 32 →
          readMessage ⟨deliver (frame tag payload ++ [0x03]) [], [], false⟩
            = .ok ([tag], payload) ⟨deliver [0x03] [], [], false⟩ :=
  read_single_call [0x01, 0x02] [0x01, 0x02] [0x03] [.data [0x03, 0x04]] [] [] false 4
    (by decide)


/-- C13 (counterexample): a stream that ends right after a type tag gives the
same result of `readMessage` as a stream that ends before the tag, and the
session ends in the same way, as a clean close. -/
theorem eof_after_tag_same_as_before :
    readMessage ⟨[.data [0x51]], [], false⟩ = readMessage ⟨[], [], false⟩
      ∧ serve absentServer ⟨⟨[.data [0x51]], [], false⟩, []⟩
        = serve absentServer ⟨⟨[], [], false⟩, []⟩
      ∧ serve absentServer ⟨⟨[.data [0x51]], [], false⟩, []⟩
        = .returned ⟨⟨[], [], true⟩, []⟩ := by
  decide

/-- C13 (amended): when the stream ends before the type tag, or right after
the tag, or right after the length field of a frame with a non-empty payload,
`readMessage` returns one and the same error, which wraps `io.EOF`, and the
loop of `handleConnection` treats each case as a clean close: it writes
nothing, calls no handler, closes the connection and returns. -/
theorem eof_clean_close (s : TCPServer) (tag : Byte) (v : Nat) (out : List Byte) (cl : Bool)
    (calls : List (List Byte)) (hv : 4 < v) (hv32 : v < 2 ^ 32) :
    (readMessage ⟨[], out, cl⟩
          = .err (.wrapped "error reading from connection" .eof) ⟨[], out, cl⟩
        ∧ readMessage ⟨[.data [tag]], out, cl⟩
          = .err (.wrapped "error reading from connection" .eof) ⟨[], out, cl⟩
        ∧ readMessage ⟨[.data ([tag] ++ putUint32 v)], out, cl⟩
          = .err (.wrapped "error reading from connection" .eof) ⟨[], out, cl⟩)
      ∧ (serve s ⟨⟨[], out, cl⟩, calls⟩ = .returned ⟨⟨[], out, true⟩, calls⟩
        ∧ serve s ⟨⟨[.data [tag]], out, cl⟩, calls⟩ = .returned ⟨⟨[], out, true⟩, calls⟩
        ∧ serve s ⟨⟨[.data ([tag] ++ putUint32 v)], out, cl⟩, calls⟩
          = .returned ⟨⟨[], out, true⟩, calls⟩) := by
  have e1 := read_eof out cl 1 (by decide)
  have e4 := read_eof out cl 4 (by decide)
  have ev := read_eof out cl ((v : Int) - 4) (by omega)
  have t1 := read_deliver [tag] [] [] out cl 1 rfl
  have t2 := read_deliver [tag] (putUint32 v) [] out cl 1 rfl
  have l2 := read_deliver (putUint32 v) [] [] out cl 4 rfl
  have hd : bigEndianUint32 (putUint32 v) = some v := by
    have := bigEndianUint32_putUint32 v hv32 []
    simpa using this
  have ra : readMessage ⟨[], out, cl⟩
      = .err (.wrapped "error reading from connection" .eof) ⟨[], out, cl⟩ := by
    simp only [readMessage, e1]
  have rb : readMessage ⟨[.data [tag]], out, cl⟩
      = .err (.wrapped "error reading from connection" .eof) ⟨[], out, cl⟩ := by
    have t1' : read ⟨[.data [tag]], out, cl⟩ 1 = .ok [tag] ⟨[], out, cl⟩ := t1
    simp only [readMessage, t1', e4]
  have rc : readMessage ⟨[.data ([tag] ++ putUint32 v)], out, cl⟩
      = .err (.wrapped "error reading from connection" .eof) ⟨[], out, cl⟩ := by
    have t2' : read ⟨[.data ([tag] ++ putUint32 v)], out, cl⟩ 1
        = .ok [tag] ⟨[.data (putUint32 v)], out, cl⟩ := t2
    have l2' : read ⟨[.data (putUint32 v)], out, cl⟩ 4 = .ok (putUint32 v) ⟨[], out, cl⟩ := by
      have := l2
      simpa [deliver, putUint32] using this
    simp only [readMessage, t2', l2', hd, ev]
  refine ⟨⟨ra, rb, rc⟩, ?_, ?_, ?_⟩
  · exact serve_stop s _ _ (by rw [loopBody_err s _ _ _ ra]; rfl)
  · exact serve_stop s _ _ (by rw [loopBody_err s _ _ _ rb]; rfl)
  · exact serve_stop s _ _ (by rw [loopBody_err s _ _ _ rc]; rfl)

/-- Witness of C13 (amended): the tag of a query and the length field 13. -/
theorem eof_clean_close_witness :
    (readMessage ⟨[], [], false⟩
          = .err (.wrapped "error reading from connection" .eof) ⟨[], [], false⟩
        ∧ readMessage ⟨[.data [0x51]], [], false⟩
          = .err (.wrapped "error reading from connection" .eof) ⟨[], [], false⟩
        ∧ readMessage ⟨[.data ([0x51] ++ putUint32 13)], [], false⟩
          = .err (.wrapped "error reading from connection" .eof) ⟨[], [], false⟩)
      ∧ (serve absentServer ⟨⟨[], [], false⟩, []⟩ = .returned ⟨⟨[], [], true⟩, []⟩
        ∧ serve absentServer ⟨⟨[.data [0x51]], [], false⟩, []⟩
          = .returned ⟨⟨[], [], true⟩, []⟩
        ∧ serve absentServer ⟨⟨[.data ([0x51] ++ putUint32 13)], [], false⟩, []⟩
          = .returned ⟨⟨[], [], true⟩, []⟩) :=
  eof_clean_close absentServer 0x51 13 [] false [] (by decide) (by decide)

/-! ## The query passed to the handler -/

/-- C14 (counterexample): for the payload `SELECT 1` followed by NUL the
handler is called with all nine bytes, the NUL included; a handler that
returns its query shows the NUL inside the CommandComplete frame. -/
theorem handler_gets_trailing_nul :
    loopBody echoServer ⟨⟨deliver (frame 0x51 select1) [], [], false⟩, []⟩
        = .next ⟨⟨[], [0x43, 0x00, 0x00, 0x00, 0x0e, 0x53, 0x45, 0x4c, 0x45, 0x43, 0x54, 0x20,
            0x31, 0x00, 0x00, 0x5a, 0x00, 0x00, 0x00, 0x05, 0x49], false⟩,
            [[0x53, 0x45, 0x4c, 0x45, 0x43, 0x54, 0x20, 0x31, 0x00]]⟩
      ∧ select1.length = 9
      ∧ select1 ≠ ascii "SELECT 1" := by
  decide

/-- C14 (amended): for every simple-query frame with payload `p`, delivered in
full, the byte sequence passed to the handler is `p` itself, unchanged, a
trailing NUL included; the response is built from the handler's result at
`p`. -/
theorem handler_gets_payload (s : TCPServer) (payload rest : List Byte) (later : List Chunk)
    (out : List Byte) (cl : Bool) (calls : List (List Byte))
    (h : payload.length + 4 < 2 ^ 32) :
    loopBody s ⟨⟨deliver (frame 0x51 payload ++ rest) later, out, cl⟩, calls⟩
      = .next ⟨⟨deliver rest later, out ++ queryResponse s payload, cl⟩,
          calls ++ [payload]⟩ := by
  rw [loopBody_frame s 0x51 payload rest later out cl calls h]
  simp only [queryResponse]
  cases (s.qryHandler payload).1 <;> simp [acceptMsg, readyForQuery]

/-- Witness of C14 (amended): the payload `SELECT 1` followed by NUL. -/
theorem handler_gets_payload_witness :
    loopBody echoServer ⟨⟨deliver (frame 0x51 select1 ++ []) [], [], false⟩, []⟩
      = .next ⟨⟨deliver [] [], [] ++ queryResponse echoServer select1, false⟩,
          [] ++ [select1]⟩ :=
  handler_gets_payload echoServer select1 [] [] [] false [] (by decide)

/-! ## Construction of the server -/

theorem applyOptions_append (xs ys : List tcpServerOption) (s : TCPServer) :
    applyOptions (xs ++ ys) s = applyOptions ys (applyOptions xs s) := by
  induction xs generalizing s with
  | nil => rfl
  | cons x xs ih => exact ih (x s)

theorem applyOptions_eq_foldl (opts : List tcpServerOption) (s : TCPServer) :
    applyOptions opts s = opts.foldl (fun acc opt => opt acc) s := by
  induction opts generalizing s with
  | nil => rfl
  | cons x xs ih => exact ih (x s)

theorem applyOptions_timezones_serverVersion (tzs : List (List Byte)) (s : TCPServer) :
    (applyOptions (tzs.map WithTimeZone) s).serverVersion = s.serverVersion := by
  induction tzs generalizing s with
  | nil => rfl
  | cons t ts ih => exact ih (WithTimeZone t s)

theorem applyOptions_versions_timezone (vs : List (List Byte)) (s : TCPServer) :
    (applyOptions (vs.map WithServerVersion) s).timezone = s.timezone := by
  induction vs generalizing s with
  | nil => rfl
  | cons v vs ih => exact ih (WithServerVersion v s)

/-- C15: `NewTCPServer(conf, opts...)` is the result of applying `opts` in list
order, left to right, to the server with the configured port and handler and
the defaults `0.0` and `UTC`; with no options the defaults are kept;
`WithServerVersion` changes only `serverVersion` and `WithTimeZone` only
`timezone`; of several occurrences of an option the last one wins. -/
theorem NewTCPServer_options (conf : TCPServerConfig) (opts : List tcpServerOption)
    (v t : List Byte) (vs tzs : List (List Byte)) (s : TCPServer) :
    NewTCPServer conf opts
        = opts.foldl (fun acc opt => opt acc)
            { port := conf.Port, qryHandler := conf.QueryHandler,
              serverVersion := ascii "0.0", timezone := ascii "UTC" }
      ∧ NewTCPServer conf []
        = { port := conf.Port, qryHandler := conf.QueryHandler,
            serverVersion := ascii "0.0", timezone := ascii "UTC" }
      ∧ WithServerVersion v s
        = { port := s.port, qryHandler := s.qryHandler, serverVersion := v,
            timezone := s.timezone }
      ∧ WithTimeZone t s
        = { port := s.port, qryHandler := s.qryHandler, serverVersion := s.serverVersion,
            timezone := t }
      ∧ (NewTCPServer conf (opts ++ [WithServerVersion v] ++ tzs.map WithTimeZone)).serverVersion
        = v
      ∧ (NewTCPServer conf (opts ++ [WithTimeZone t] ++ vs.map WithServerVersion)).timezone
        = t := by
  refine ⟨applyOptions_eq_foldl opts _, rfl, rfl, rfl, ?_, ?_⟩
  · simp only [NewTCPServer, applyOptions_append, applyOptions_timezones_serverVersion]
    rfl
  · simp only [NewTCPServer, applyOptions_append, applyOptions_versions_timezone]
    rfl


/-! ## The order of the handshake steps -/

theorem read_output (c c1 : Conn) (len : Int) :
    (∀ bs, read c len = .ok bs c1 → c1.output = c.output)
      ∧ (∀ e, read c len = .err e c1 → c1.output = c.output) := by
  obtain ⟨input, out, cl⟩ := c
  unfold read Conn.read
  constructor
  · intro bs h
    split at h
    · cases h
    · split at h
      · cases h
      · rename_i heq
        cases h
        split at heq
        · cases heq; rfl
        · split at heq
          · cases heq
          · cases heq
          · split at heq <;> cases heq <;> rfl
  · intro e h
    split at h
    · cases h
    · split at h
      · rename_i heq
        cases h
        split at heq
        · cases heq
        · split at heq
          · cases heq; rfl
          · cases heq; rfl
          · split at heq <;> cases heq
      · cases h

theorem startup_deliver (s : TCPServer) (L : Nat) (body rest : List Byte)
    (later : List Chunk) (out : List Byte) (cl : Bool)
    (hL : 4 ≤ L) (hL32 : L < 2 ^ 32) (hbody : body.length = L - 4) :
    startup s ⟨deliver (putUint32 L ++ body ++ rest) later, out, cl⟩
      = .ok () ⟨deliver rest later, out ++ handshakeBytes s, cl⟩ := by
  have r1 := read_deliver (putUint32 L) (body ++ rest) later out cl 4 rfl
  have r2 := read_deliver body rest later (out ++ [0x4e]) cl ((L : Int) - 4) (by omega)
  have hv : bigEndianUint32 (putUint32 L) = some L := by
    have := bigEndianUint32_putUint32 L hL32 []
    simpa using this
  rw [List.append_assoc]
  simp only [startup, r1, Conn.write, hv, r2, buildParameters, authenticationOk,
    readyForQuery, handshakeBytes, List.append_assoc]

/-- C16 (counterexample): the length field 8 is read and the read of the body
fails, with a transport error or at the end of the stream; `startup` returns
the error and has already written the decline byte `0x4e`. -/
theorem decline_written_before_body :
    startup absentServer ⟨[.data (putUint32 8), .fail "i/o timeout"], [], false⟩
        = .err (.wrapped "error reading from connection" (.other "i/o timeout"))
            ⟨[], [0x4e], false⟩
      ∧ startup absentServer ⟨[.data (putUint32 8)], [], false⟩
        = .err (.wrapped "error reading from connection" .eof) ⟨[], [0x4e], false⟩ := by
  decide

/-- C16 (amended): `startup` writes the decline byte right after the length has
been read and before the body is read: whenever the 4-byte length is read and
the read of the body fails, `startup` returns that error having written
exactly the decline byte `0x4e` and nothing else. -/
theorem startup_body_error (s : TCPServer) (c c1 c3 : Conn) (sizeByte : List Byte)
    (size : Nat) (e : GoError) (h1 : read c 4 = .ok sizeByte c1)
    (h2 : bigEndianUint32 sizeByte = some size)
    (h3 : read (c1.write [0x4e]) ((size : Int) - 4) = .err e c3) :
    startup s c = .err e c3 ∧ c3.output = c.output ++ [0x4e] := by
  constructor
  · simp only [startup, h1, h2, h3]
  · have o1 := (read_output c c1 4).1 sizeByte h1
    have o3 := (read_output (c1.write [0x4e]) c3 _).2 e h3
    rw [o3]
    simp only [Conn.write, o1]

/-- Witness of C16 (amended): the length 8, then a time-out. -/
theorem startup_body_error_witness :
    startup absentServer ⟨[.data (putUint32 8), .fail "i/o timeout"], [], false⟩
        = .err (.wrapped "error reading from connection" (.other "i/o timeout"))
            ⟨[], [0x4e], false⟩
      ∧ (⟨[], [0x4e], false⟩ : Conn).output
        = (⟨[.data (putUint32 8), .fail "i/o timeout"], [], false⟩ : Conn).output ++ [0x4e] :=
  startup_body_error absentServer ⟨[.data (putUint32 8), .fail "i/o timeout"], [], false⟩
    ⟨[.fail "i/o timeout"], [], false⟩ ⟨[], [0x4e], false⟩ (putUint32 8) 8
    (.wrapped "error reading from connection" (.other "i/o timeout"))
    (by decide) (by decide) (by decide)

/-- C17: for a startup packet with length field `L >= 4` followed by any
suffix, delivered in full, `startup` consumes exactly the `L` bytes of the
packet, whatever the body holds: the stream afterwards is the suffix, and the
next byte read is the first byte of the suffix. -/
theorem startup_consumes_packet (s : TCPServer) (L : Nat) (body rest : List Byte)
    (later : List Chunk) (out : List Byte) (cl : Bool)
    (hL : 4 ≤ L) (hL32 : L < 2 ^ 32) (hbody : body.length = L - 4) :
    ∃ c1, startup s ⟨deliver (putUint32 L ++ body ++ rest) later, out, cl⟩ = .ok () c1
      ∧ c1.input = deliver rest later
      ∧ (putUint32 L ++ body).length = L
      ∧ ∀ b rest1, rest = b :: rest1 →
          read c1 1 = .ok [b] ⟨deliver rest1 later, c1.output, c1.closed⟩ := by
  refine ⟨_, startup_deliver s L body rest later out cl hL hL32 hbody, rfl, ?_, ?_⟩
  · simp only [List.length_append, hbody, putUint32, List.length_cons, List.length_nil]
    omega
  · intro b rest1 hr
    subst hr
    exact read_deliver [b] rest1 later _ cl 1 rfl

/-- Witness of C17: the minimal packet of total length 8, four bytes after the
length, followed by a query frame. -/
theorem startup_consumes_packet_witness :
    ∃ c1, startup absentServer
          ⟨deliver (putUint32 8 ++ [0x00, 0x03, 0x00, 0x00] ++ frame 0x51 select1) [], [], false⟩
        = .ok () c1
      ∧ c1.input = deliver (frame 0x51 select1) []
      ∧ (putUint32 8 ++ [0x00, 0x03, 0x00, 0x00]).length = 8
      ∧ ∀ b rest1, frame 0x51 select1 = b :: rest1 →
          read c1 1 = .ok [b] ⟨deliver rest1 [], c1.output, c1.closed⟩ :=
  startup_consumes_packet absentServer 8 [0x00, 0x03, 0x00, 0x00] (frame 0x51 select1) [] []
    false (by decide) (by decide) rfl


/-! ## The whole session -/

theorem serve_eof (s : TCPServer) (out : List Byte) (cl : Bool) (calls : List (List Byte)) :
    serve s ⟨⟨[], out, cl⟩, calls⟩ = .returned ⟨⟨[], out, true⟩, calls⟩ := by
  have ra : readMessage ⟨[], out, cl⟩
      = .err (.wrapped "error reading from connection" .eof) ⟨[], out, cl⟩ := by
    simp only [readMessage, read_eof out cl 1 (by decide)]
  exact serve_stop s _ _ (by rw [loopBody_err s _ _ _ ra]; rfl)

theorem loopBody_query (s : TCPServer) (payload rest : List Byte) (later : List Chunk)
    (out : List Byte) (cl : Bool) (calls : List (List Byte))
    (h : payload.length + 4 < 2 ^ 32) :
    loopBody s ⟨⟨deliver (frame 0x51 payload ++ rest) later, out, cl⟩, calls⟩
      = .next ⟨⟨deliver rest later, out ++ queryResponse s payload, cl⟩,
          calls ++ [payload]⟩ := by
  rw [loopBody_frame s 0x51 payload rest later out cl calls h]
  simp only [queryResponse]
  cases (s.qryHandler payload).1 <;> simp [acceptMsg, readyForQuery]

/-! ## The whole session, with the memory of the handler -/

theorem loopBodyMem_size_lt {σ : Type} (h : StatefulHandler σ) (st st1 : Session σ)
    (hn : loopBodyMem h st = .next st1) :
    streamSize st1.conn.input < streamSize st.conn.input := by
  unfold loopBodyMem at hn
  split at hn
  · cases hn
  · split at hn <;> cases hn
  · rename_i typ msg c1 hr
    have hs := readMessage_size_lt st.conn c1 (typ, msg) hr
    split at hn
    · cases hn
    · split at hn
      · cases hn
      · split at hn
        · simp only at hn
          split at hn <;> cases hn <;> exact hs
        · cases hn
          exact hs

theorem handleLoopMem_fuel {σ : Type} (h : StatefulHandler σ) :
    ∀ (f g : Nat) (st : Session σ), streamSize st.conn.input < f →
      streamSize st.conn.input < g → handleLoopMem h f st = handleLoopMem h g st := by
  intro f
  induction f with
  | zero => intro g st hf; omega
  | succ f ih =>
    intro g st hf hg
    cases g with
    | zero => omega
    | succ g =>
      simp only [handleLoopMem]
      cases hb : loopBodyMem h st with
      | stop o => rfl
      | next st1 =>
        have := loopBodyMem_size_lt h st st1 hb
        exact ih g st1 (by omega) (by omega)

theorem serveMem_step {σ : Type} (h : StatefulHandler σ) (st st1 : Session σ)
    (hn : loopBodyMem h st = .next st1) : serveMem h st = serveMem h st1 := by
  have hlt := loopBodyMem_size_lt h st st1 hn
  unfold serveMem
  simp only [handleLoopMem, hn]
  exact handleLoopMem_fuel h _ _ st1 (by omega) (Nat.lt_succ_self _)

theorem serveMem_stop {σ : Type} (h : StatefulHandler σ) (st : Session σ) (o : OutcomeMem σ)
    (hb : loopBodyMem h st = .stop o) : serveMem h st = o := by
  simp only [serveMem, handleLoopMem, hb]

theorem serveMem_eof {σ : Type} (h : StatefulHandler σ) (out : List Byte) (cl : Bool)
    (calls : List (List Byte)) (hs : σ) (heap : Heap) :
    serveMem h ⟨⟨[], out, cl⟩, calls, hs, heap⟩ = .returned ⟨⟨[], out, true⟩, calls, hs, heap⟩ := by
  have ra : readMessage ⟨[], out, cl⟩
      = .err (.wrapped "error reading from connection" .eof) ⟨[], out, cl⟩ := by
    simp only [readMessage, read_eof out cl 1 (by decide)]
  apply serveMem_stop
  simp only [loopBodyMem, ra]
  rfl

theorem loopBodyMem_frame {σ : Type} (h : StatefulHandler σ) (tag : Byte)
    (payload rest : List Byte) (later : List Chunk) (out : List Byte) (cl : Bool)
    (calls : List (List Byte)) (hs : σ) (heap : Heap) (hp : payload.length + 4 < 2 ^ 32) :
    loopBodyMem h ⟨⟨deliver (frame tag payload ++ rest) later, out, cl⟩, calls, hs, heap⟩
      = if tag = 0x58 then
          .stop (.returned ⟨⟨deliver rest later, out, true⟩, calls, hs, heap⟩)
        else if tag = 0x51 then
          match (h.call hs heap payload).1.1 with
          | none =>
            .next ⟨⟨deliver rest later, out ++ acceptMsg ++ readyForQuery, cl⟩,
              calls ++ [payload], (h.call hs heap payload).2.1, (h.call hs heap payload).2.2⟩
          | some b =>
            .next ⟨⟨deliver rest later,
                out ++ buildCompletedResponse (b.bytes (h.call hs heap payload).2.2)
                  ++ readyForQuery, cl⟩,
              calls ++ [payload], (h.call hs heap payload).2.1,
              appendNul (h.call hs heap payload).2.2 b⟩
        else .next ⟨⟨deliver rest later, out, cl⟩, calls, hs, heap⟩ := by
  simp only [loopBodyMem, readMessage_frame tag payload rest later out cl hp, Conn.close,
    Conn.write]

theorem handlerRun_length {σ : Type} (h : StatefulHandler σ) :
    ∀ (qs : List (List Byte)) (hs : σ) (heap : Heap),
      (handlerRun h hs heap qs).1.length = qs.length := by
  intro qs
  induction qs with
  | nil => intro hs heap; rfl
  | cons q qs ih =>
    intro hs heap
    simp only [handlerRun]
    split <;> simp [ih]

theorem serveMem_frames {σ : Type} (h : StatefulHandler σ) (cl : Bool) :
    ∀ (fs : List (Byte × List Byte)) (out : List Byte) (calls : List (List Byte)) (hs : σ)
      (heap : Heap), (∀ f ∈ fs, f.2.length + 4 < 2 ^ 32) →
      serveMem h ⟨⟨deliver (framesBytes fs) [], out, cl⟩, calls, hs, heap⟩
        = .returned
            ⟨⟨deliver (afterTerminate fs) [],
                out ++ responsesOf (handlerRun h hs heap (sessionQueries fs)).1, true⟩,
              calls ++ sessionQueries fs,
              (handlerRun h hs heap (sessionQueries fs)).2.1,
              (handlerRun h hs heap (sessionQueries fs)).2.2⟩ := by
  intro fs
  induction fs with
  | nil =>
    intro out calls hs heap _
    simp only [framesBytes, afterTerminate, sessionQueries, handlerRun, responsesOf, deliver,
      List.append_nil]
    exact serveMem_eof h out cl calls hs heap
  | cons f fs ih =>
    intro out calls hs heap hfs
    obtain ⟨tag, payload⟩ := f
    have hp : payload.length + 4 < 2 ^ 32 := hfs (tag, payload) (List.mem_cons_self _ _)
    have hrest : ∀ g ∈ fs, g.2.length + 4 < 2 ^ 32 :=
      fun g hg => hfs g (List.mem_cons_of_mem _ hg)
    have hb := loopBodyMem_frame h tag payload (framesBytes fs) [] out cl calls hs heap hp
    by_cases hX : tag = 0x58
    · rw [if_pos hX] at hb
      simp only [framesBytes, afterTerminate, sessionQueries, if_pos hX, handlerRun,
        responsesOf, List.append_nil]
      exact serveMem_stop h _ _ hb
    · by_cases hQ : tag = 0x51
      · rw [if_neg hX, if_pos hQ] at hb
        simp only [framesBytes, afterTerminate, sessionQueries, if_neg hX, if_pos hQ,
          handlerRun]
        cases hr : (h.call hs heap payload).1.1 with
        | none =>
          rw [hr] at hb
          simp only at hb
          rw [serveMem_step h _ _ hb, ih _ _ _ _ hrest]
          simp only [responsesOf, acceptMsg, readyForQuery, List.append_assoc,
            List.singleton_append]
        | some b =>
          rw [hr] at hb
          simp only at hb
          rw [serveMem_step h _ _ hb, ih _ _ _ _ hrest]
          simp only [responsesOf, readyForQuery, List.append_assoc, List.singleton_append]
      · rw [if_neg hX, if_neg hQ] at hb
        simp only [framesBytes, afterTerminate, sessionQueries, if_neg hX, if_neg hQ]
        rw [serveMem_step h _ _ hb, ih _ _ _ _ hrest]

/-- C18: for every server, every handler (whatever state and memory it keeps),
every startup packet with length field `L >= 4` and every sequence of
well-formed frames followed by the end of the stream, all delivered in full,
`handleConnection` returns with the connection closed; the bytes written are
the handshake sequence once, as a prefix, then in order the responses to the
frames before the first Terminate frame: CommandComplete of what the handler
returned at that call and ReadyForQuery for a query frame, nothing for any
other frame; the handler is called once per such query frame, in stream order,
with the frame's payload; the frames after the first Terminate frame stay
unread. -/
theorem session_output {σ : Type} (s : TCPServer) (h : StatefulHandler σ) (hs : σ)
    (heap : Heap) (L : Nat) (body : List Byte) (fs : List (Byte × List Byte))
    (out : List Byte) (cl : Bool)
    (hL : 4 ≤ L) (hL32 : L < 2 ^ 32) (hbody : body.length = L - 4)
    (hfs : ∀ f ∈ fs, f.2.length + 4 < 2 ^ 32) :
    handleConnectionMem s h ⟨deliver (putUint32 L ++ body ++ framesBytes fs) [], out, cl⟩
        hs heap
      = .returned
          ⟨⟨deliver (afterTerminate fs) [],
              out ++ handshakeBytes s
                ++ responsesOf (handlerRun h hs heap (sessionQueries fs)).1, true⟩,
            sessionQueries fs,
            (handlerRun h hs heap (sessionQueries fs)).2.1,
            (handlerRun h hs heap (sessionQueries fs)).2.2⟩
      ∧ (handlerRun h hs heap (sessionQueries fs)).1.length = (sessionQueries fs).length := by
  have hst := startup_deliver s L body (framesBytes fs) [] out cl hL hL32 hbody
  have hf := serveMem_frames h cl fs (out ++ handshakeBytes s) [] hs heap hfs
  refine ⟨?_, handlerRun_length h _ hs heap⟩
  simp only [handleConnectionMem, hst, hf, List.nil_append]

/-- Witness of C18: the minimal startup packet and two queries, for the handler
that returns the first two bytes of its array `OKAY` and then all four. -/
theorem session_output_witness :
    handleConnectionMem absentServer tableHandler
        ⟨deliver (putUint32 8 ++ [0x00, 0x03, 0x00, 0x00]
          ++ framesBytes [(0x51, [0x61, 0x00]), (0x51, [0x62, 0x00])]) [], [], false⟩
        0 tableHeap
      = .returned
          ⟨⟨deliver (afterTerminate [(0x51, [0x61, 0x00]), (0x51, [0x62, 0x00])]) [],
              [] ++ handshakeBytes absentServer
                ++ responsesOf (handlerRun tableHandler 0 tableHeap
                    (sessionQueries [(0x51, [0x61, 0x00]), (0x51, [0x62, 0x00])])).1, true⟩,
            sessionQueries [(0x51, [0x61, 0x00]), (0x51, [0x62, 0x00])],
            (handlerRun tableHandler 0 tableHeap
              (sessionQueries [(0x51, [0x61, 0x00]), (0x51, [0x62, 0x00])])).2.1,
            (handlerRun tableHandler 0 tableHeap
              (sessionQueries [(0x51, [0x61, 0x00]), (0x51, [0x62, 0x00])])).2.2⟩
      ∧ (handlerRun tableHandler 0 tableHeap
            (sessionQueries [(0x51, [0x61, 0x00]), (0x51, [0x62, 0x00])])).1.length
          = (sessionQueries [(0x51, [0x61, 0x00]), (0x51, [0x62, 0x00])]).length :=
  session_output absentServer tableHandler 0 tableHeap 8 [0x00, 0x03, 0x00, 0x00]
    [(0x51, [0x61, 0x00]), (0x51, [0x62, 0x00])] [] false
    (by decide) (by decide) rfl (by decide)

/-- The session of the witness of C18, evaluated: the NUL appended to the first
result lands in the handler's array, so the second result is `4f 4b 00 59`;
each response is the CommandComplete frame of what the handler returned at
that call. -/
theorem table_session_bytes :
    handleConnectionMem absentServer tableHandler
        ⟨deliver (putUint32 8 ++ [0x00, 0x03, 0x00, 0x00]
          ++ framesBytes [(0x51, [0x61, 0x00]), (0x51, [0x62, 0x00])]) [], [], false⟩
        0 tableHeap
      = .returned
          ⟨⟨[], handshakeBytes absentServer
              ++ [0x43, 0x00, 0x00, 0x00, 0x07, 0x4f, 0x4b, 0x00,
                  0x5a, 0x00, 0x00, 0x00, 0x05, 0x49,
                  0x43, 0x00, 0x00, 0x00, 0x09, 0x4f, 0x4b, 0x00, 0x59, 0x00,
                  0x5a, 0x00, 0x00, 0x00, 0x05, 0x49], true⟩,
            [[0x61, 0x00], [0x62, 0x00]], 2, [[0x4f, 0x4b, 0x00, 0x59]]⟩
      ∧ handlerRun tableHandler 0 tableHeap [[0x61, 0x00], [0x62, 0x00]]
        = ([some [0x4f, 0x4b], some [0x4f, 0x4b, 0x00, 0x59]], 2, [[0x4f, 0x4b, 0x00, 0x59]]) := by
  decide

theorem freshSlice_bytes (heap : Heap) (r : List Byte) :
    Slice.bytes ⟨heap.length, 0, r.length, r.length⟩ (heap ++ [r]) = r := by
  simp [Slice.bytes, List.getD_eq_getElem?_getD]

theorem appendNul_full (heap : Heap) (b : Slice) (hfull : b.cap ≤ b.len) :
    appendNul heap b = heap := by
  have hn : ¬ b.len < b.cap := by omega
  simp only [appendNul, hn, if_false]

/-- For a handler without memory of its own, which returns every result in a
new array without spare capacity, one pass of the loop with the handler's
memory is the pass of `loopBody`. -/
theorem loopBodyMem_fresh (s : TCPServer) (st : Session Unit) :
    (match loopBodyMem (freshHandler s.qryHandler) st with
      | .next st1 => Step.next st1.toState
      | .stop o => Step.stop o.toOutcome)
      = loopBody s st.toState := by
  unfold loopBodyMem loopBody
  simp only [Session.toState]
  cases readMessage st.conn with
  | panicked m c1 => rfl
  | err e c1 =>
    simp only
    cases errorsIsEOF e <;> rfl
  | ok r c1 =>
    obtain ⟨typ, msg⟩ := r
    cases typ with
    | nil => rfl
    | cons t ts =>
      simp only
      by_cases hX : t = 0x58
      · simp only [hX, if_true]
        rfl
      · by_cases hQ : t = 0x51
        · simp only [hX, hQ, if_false, if_true, freshHandler]
          cases hq : (s.qryHandler msg).1 with
          | none => simp [hq, OutcomeMem.toOutcome, Session.toState]
          | some r =>
            simp [hq, freshSlice_bytes, OutcomeMem.toOutcome, Session.toState]
        · simp only [hX, hQ, if_false]

/-- For a handler without memory of its own the session with the handler's
memory ends as `handleConnection` does. -/
theorem handleConnectionMem_fresh (s : TCPServer) (c : Conn) (heap : Heap) :
    (handleConnectionMem s (freshHandler s.qryHandler) c () heap).toOutcome
      = handleConnection s c := by
  have hloop : ∀ (fuel : Nat) (st : Session Unit),
      (handleLoopMem (freshHandler s.qryHandler) fuel st).toOutcome
        = handleLoop s fuel st.toState := by
    intro fuel
    induction fuel with
    | zero => intro st; rfl
    | succ fuel ih =>
      intro st
      have hb := loopBodyMem_fresh s st
      simp only [handleLoopMem, handleLoop, ← hb]
      cases loopBodyMem (freshHandler s.qryHandler) st with
      | stop o => rfl
      | next st1 => exact ih st1
  unfold handleConnectionMem handleConnection
  cases startup s c with
  | panicked m c1 => rfl
  | err e c1 => exact hloop _ _
  | ok u c1 => exact hloop _ _

theorem loopBody_okResult (s : TCPServer) (h : QueryHandler) (st : State) :
    loopBody { s with qryHandler := h } st
      = loopBody { s with qryHandler := okResult h } st := by
  unfold loopBody
  cases readMessage st.conn with
  | panicked m c1 => rfl
  | err e c1 => rfl
  | ok r c1 =>
    obtain ⟨typ, msg⟩ := r
    cases typ with
    | nil => rfl
    | cons t ts =>
      simp only [okResult]
      cases (h msg).1 <;> rfl

theorem handleLoop_okResult (s : TCPServer) (h : QueryHandler) :
    ∀ (fuel : Nat) (st : State),
      handleLoop { s with qryHandler := h } fuel st
        = handleLoop { s with qryHandler := okResult h } fuel st := by
  intro fuel
  induction fuel with
  | zero => intro st; rfl
  | succ fuel ih =>
    intro st
    simp only [handleLoop, ← loopBody_okResult s h st]
    cases loopBody { s with qryHandler := h } st with
    | stop o => rfl
    | next st1 => exact ih st1

/-- C19: the constant `acceptMsg` is byte for byte `buildCompletedResponse` of
the two bytes `OK`; hence a handler that returns an absent result and the
handler that returns the bytes `OK` in its place give the same run of
`handleConnection`, the same bytes written included, on every connection. -/
theorem acceptMsg_is_completed_ok (s : TCPServer) (h : QueryHandler) (c : Conn) (st : State) :
    acceptMsg = buildCompletedResponse [0x4f, 0x4b]
      ∧ loopBody { s with qryHandler := h } st
        = loopBody { s with qryHandler := okResult h } st
      ∧ handleConnection { s with qryHandler := h } c
        = handleConnection { s with qryHandler := okResult h } c := by
  refine ⟨by decide, loopBody_okResult s h st, ?_⟩
  have hs : startup { s with qryHandler := h } c
      = startup { s with qryHandler := okResult h } c := rfl
  simp only [handleConnection, ← hs, serve, handleLoop_okResult s h]


theorem startup_body_fail (s : TCPServer) (L : Nat) (msg : String) (input : List Chunk)
    (out : List Byte) (cl : Bool) (hL : 4 < L) (hL32 : L < 2 ^ 32) :
    startup s ⟨.data (putUint32 L) :: .fail msg :: input, out, cl⟩
      = .err (.wrapped "error reading from connection" (.other msg))
          ⟨input, out ++ [0x4e], cl⟩ := by
  have r1 : read ⟨.data (putUint32 L) :: .fail msg :: input, out, cl⟩ 4
      = .ok (putUint32 L) ⟨.fail msg :: input, out, cl⟩ := by
    simp [read, Conn.read, putUint32]
  have hv : bigEndianUint32 (putUint32 L) = some L := by
    have := bigEndianUint32_putUint32 L hL32 []
    simpa using this
  have h0 : ¬ ((L : Int) - 4) < 0 := by omega
  have h1 : ((L : Int) - 4).toNat ≠ 0 := by omega
  have r2 : read ⟨.fail msg :: input, out ++ [0x4e], cl⟩ ((L : Int) - 4)
      = .err (.wrapped "error reading from connection" (.other msg))
          ⟨input, out ++ [0x4e], cl⟩ := by
    simp only [read, h0, if_false, Conn.read, h1]
  simp only [startup, r1, hv, Conn.write, r2]

/-- C20: `handleConnection` discards the result of `startup`: the frame loop is
entered when `startup` returned an error just as when it returned none. When
the length of the startup packet is read, the read of the body fails with a
transport error and a well-formed query frame follows, the next pass of the
loop calls the handler with that query and writes CommandComplete and
ReadyForQuery for it; when the stream ends after that frame,
`handleConnection` returns having written the decline byte, then
CommandComplete and ReadyForQuery, and no AuthenticationOk. -/
theorem startup_result_discarded (s : TCPServer) (L : Nat) (msg : String)
    (payload rest : List Byte) (later : List Chunk) (out : List Byte) (cl : Bool)
    (hL : 4 < L) (hL32 : L < 2 ^ 32) (hp : payload.length + 4 < 2 ^ 32) :
    (∀ c e c1, startup s c = .err e c1 → handleConnection s c = serve s ⟨c1, []⟩)
      ∧ (∀ c c1, startup s c = .ok () c1 → handleConnection s c = serve s ⟨c1, []⟩)
      ∧ startup s ⟨.data (putUint32 L) :: .fail msg :: deliver (frame 0x51 payload ++ rest) later,
            out, cl⟩
        = .err (.wrapped "error reading from connection" (.other msg))
            ⟨deliver (frame 0x51 payload ++ rest) later, out ++ [0x4e], cl⟩
      ∧ handleConnection s
          ⟨.data (putUint32 L) :: .fail msg :: deliver (frame 0x51 payload ++ rest) later,
            out, cl⟩
        = serve s ⟨⟨deliver rest later, out ++ [0x4e] ++ queryResponse s payload, cl⟩,
            [payload]⟩
      ∧ loopBody s ⟨⟨deliver (frame 0x51 payload ++ rest) later, out ++ [0x4e], cl⟩, []⟩
        = .next ⟨⟨deliver rest later,
            out ++ [0x4e]
              ++ (match (s.qryHandler payload).1 with
                  | none => [0x43, 0x00, 0x00, 0x00, 0x07, 0x4f, 0x4b, 0x00]
                  | some r => buildCompletedResponse r)
              ++ [0x5a, 0x00, 0x00, 0x00, 0x05, 0x49], cl⟩, [payload]⟩
      ∧ handleConnection s
          ⟨.data (putUint32 L) :: .fail msg :: deliver (frame 0x51 payload) [], out, cl⟩
        = .returned ⟨⟨[],
            out ++ [0x4e]
              ++ (match (s.qryHandler payload).1 with
                  | none => [0x43, 0x00, 0x00, 0x00, 0x07, 0x4f, 0x4b, 0x00]
                  | some r => buildCompletedResponse r)
              ++ [0x5a, 0x00, 0x00, 0x00, 0x05, 0x49], true⟩, [payload]⟩ := by
  have hs := startup_body_fail s L msg (deliver (frame 0x51 payload ++ rest) later) out cl
    hL hL32
  have hq := loopBody_query s payload rest later (out ++ [0x4e]) cl [] hp
  have hs0 := startup_body_fail s L msg (deliver (frame 0x51 payload) []) out cl hL hL32
  have hq0 := loopBody_query s payload [] [] (out ++ [0x4e]) cl [] hp
  rw [List.append_nil] at hq0
  refine ⟨?_, ?_, hs, ?_, ?_, ?_⟩
  · intro c e c1 h
    simp only [handleConnection, h]
  · intro c c1 h
    simp only [handleConnection, h]
  · simp only [handleConnection, hs]
    rw [serve_step s _ _ hq]
    rfl
  · rw [hq]
    simp only [queryResponse, List.nil_append, List.append_assoc]
  · simp only [handleConnection, hs0]
    rw [serve_step s _ _ hq0]
    simp only [deliver, List.nil_append]
    rw [serve_eof]
    simp only [queryResponse, List.append_assoc]

/-- Witness of C20: the length 8, a time-out instead of the body, then the
query `SELECT 1`. -/
theorem startup_result_discarded_witness :
    (∀ c e c1, startup absentServer c = .err e c1 →
        handleConnection absentServer c = serve absentServer ⟨c1, []⟩)
      ∧ (∀ c c1, startup absentServer c = .ok () c1 →
        handleConnection absentServer c = serve absentServer ⟨c1, []⟩)
      ∧ startup absentServer
          ⟨.data (putUint32 8) :: .fail "i/o timeout" :: deliver (frame 0x51 select1 ++ []) [],
            [], false⟩
        = .err (.wrapped "error reading from connection" (.other "i/o timeout"))
            ⟨deliver (frame 0x51 select1 ++ []) [], [] ++ [0x4e], false⟩
      ∧ handleConnection absentServer
          ⟨.data (putUint32 8) :: .fail "i/o timeout" :: deliver (frame 0x51 select1 ++ []) [],
            [], false⟩
        = serve absentServer
            ⟨⟨deliver [] [], [] ++ [0x4e] ++ queryResponse absentServer select1, false⟩,
              [select1]⟩
      ∧ loopBody absentServer ⟨⟨deliver (frame 0x51 select1 ++ []) [], [] ++ [0x4e], false⟩, []⟩
        = .next ⟨⟨deliver [] [],
            [] ++ [0x4e]
              ++ (match (absentServer.qryHandler select1).1 with
                  | none => [0x43, 0x00, 0x00, 0x00, 0x07, 0x4f, 0x4b, 0x00]
                  | some r => buildCompletedResponse r)
              ++ [0x5a, 0x00, 0x00, 0x00, 0x05, 0x49], false⟩, [select1]⟩
      ∧ handleConnection absentServer
          ⟨.data (putUint32 8) :: .fail "i/o timeout" :: deliver (frame 0x51 select1) [],
            [], false⟩
        = .returned ⟨⟨[],
            [] ++ [0x4e]
              ++ (match (absentServer.qryHandler select1).1 with
                  | none => [0x43, 0x00, 0x00, 0x00, 0x07, 0x4f, 0x4b, 0x00]
                  | some r => buildCompletedResponse r)
              ++ [0x5a, 0x00, 0x00, 0x00, 0x05, 0x49], true⟩, [select1]⟩ :=
  startup_result_discarded absentServer 8 "i/o timeout" select1 [] [] [] false
    (by decide) (by decide) (by decide)

/-- The session of the witness of C20, evaluated: the handler is called with
`SELECT 1` and the bytes written are `4e`, CommandComplete `OK` and
ReadyForQuery. -/
theorem discarded_startup_bytes :
    handleConnection absentServer
        ⟨.data (putUint32 8) :: .fail "i/o timeout" :: deliver (frame 0x51 select1) [],
          [], false⟩
      = .returned ⟨⟨[], [0x4e, 0x43, 0x00, 0x00, 0x00, 0x07, 0x4f, 0x4b, 0x00,
          0x5a, 0x00, 0x00, 0x00, 0x05, 0x49], true⟩, [select1]⟩ := by
  decide

end MiniPsqld
